import Mathlib

/-!
Shallow embedding of the tree-conflict resolution engine of
`subversion/libsvn_client/conflicts.c`, together with theorems checking the
natural-language specification against the code.

Conventions:
* Revision numbers are `Int`; `SVN_INVALID_REVNUM` is `-1` as in svn_types.h.
* APR hash tables keyed by strings are modelled as association lists where
  `svn_hash_sets` overwrites the binding for an existing key.
* Functions returning `svn_error_t *` are modelled in `Except SvnErr α`
  (or return an `Option SvnErr` alongside their outputs when the C code
  continues past an error in order to compose it with a later one).
* External collaborators (the RA session and the working-copy library) are
  parameters: records of functions supplied by the environment.
-/

/-- `SVN_INVALID_REVNUM` from svn_types.h. -/
def SVN_INVALID_REVNUM : Int := -1

/-- Error codes distinguished by the engine (svn_error_codes.h subset). -/
inductive ErrCode where
  | WC_CONFLICT_RESOLVER_FAILURE
  | CLIENT_CONFLICT_OPTION_NOT_APPLICABLE
  | ASSERTION_FAIL
  | RA_ILLEGAL_URL
  | GENERIC
  deriving DecidableEq, Repr

/-- An svn error chain: the head is the error originally raised, later
entries were composed onto it by `svn_error_compose_create`. -/
structure SvnErr where
  codes : List ErrCode
  nonempty : codes ≠ []
  deriving Repr

/-- Build a one-element error chain. -/
def SvnErr.mk1 (c : ErrCode) : SvnErr := ⟨[c], by simp⟩

/-- The error code of the head of the chain (what `err->apr_err` reports). -/
def SvnErr.head (e : SvnErr) : ErrCode := e.codes.head e.nonempty

/-- `svn_error_compose_create(err1, err2)`: returns `err1` with `err2`
chained onto it; if either is `NULL` (`none`) the other is returned. -/
def svn_error_compose_create : Option SvnErr → Option SvnErr → Option SvnErr
  | none, e2 => e2
  | some e1, none => some e1
  | some e1, some e2 => some ⟨e1.codes ++ e2.codes, by
      intro h; exact e1.nonempty (List.append_eq_nil.mp h).1⟩

/-- `svn_client_conflict_option_id_t` from svn_client.h. -/
inductive OptionId where
  | undefined
  | unspecified
  | postpone
  | base_text
  | incoming_text
  | working_text
  | incoming_text_where_conflicted
  | working_text_where_conflicted
  | merged_text
  | accept_current_wc_state
  | update_move_destination
  | update_any_moved_away_children
  | merge_incoming_add_ignore
  | merge_incoming_added_file_text_merge
  | merge_incoming_added_file_replace
  | merge_incoming_added_file_replace_and_merge
  | merge_incoming_added_dir_merge
  | merge_incoming_added_dir_replace
  | merge_incoming_added_dir_replace_and_merge
  | incoming_delete_ignore
  | incoming_delete_accept
  deriving DecidableEq, Repr

/-- `svn_wc_operation_t`. -/
inductive WcOperation where
  | none
  | update
  | switch
  | merge
  deriving DecidableEq, Repr

/-- `svn_wc_conflict_action_t`: the incoming change. -/
inductive ConflictAction where
  | edit
  | add
  | delete
  | replace
  deriving DecidableEq, Repr

/-- `svn_wc_conflict_reason_t`: the local change. -/
inductive ConflictReason where
  | edited
  | obstructed
  | deleted
  | missing
  | unversioned
  | added
  | replaced
  | moved_away
  | moved_here
  deriving DecidableEq, Repr

/-- `svn_node_kind_t`. -/
inductive NodeKind where
  | none
  | file
  | dir
  | symlink
  | unknown
  deriving DecidableEq, Repr

/-- The option ids of the static `text_conflict_options[]` array, in array
order. -/
def text_conflict_options : List OptionId :=
  [ OptionId.postpone,
    OptionId.base_text,
    OptionId.incoming_text,
    OptionId.working_text,
    OptionId.incoming_text_where_conflicted,
    OptionId.working_text_where_conflicted,
    OptionId.merged_text ]

/-- The option ids of the static `binary_conflict_options[]` array, in array
order. -/
def binary_conflict_options : List OptionId :=
  [ OptionId.postpone,
    OptionId.incoming_text,
    OptionId.working_text,
    OptionId.merged_text ]

/-- The option ids of the static `prop_conflict_options[]` array, in array
order. -/
def prop_conflict_options : List OptionId :=
  [ OptionId.postpone,
    OptionId.base_text,
    OptionId.incoming_text,
    OptionId.working_text,
    OptionId.incoming_text_where_conflicted,
    OptionId.working_text_where_conflicted,
    OptionId.merged_text ]

/-- `svn_client_conflict_text_get_resolution_options`: if the conflict's
mime type is marked binary the binary table is copied out, else the full
text table.  (`assert_text_conflict` is a precondition handled by callers;
the returned array is a per-element copy of the chosen static table.) -/
def svn_client_conflict_text_get_resolution_options
    (mime_type_is_binary : Bool) : List OptionId :=
  if mime_type_is_binary then binary_conflict_options
  else text_conflict_options

/-- `svn_client_conflict_prop_get_resolution_options` copies out the
property table unconditionally. -/
def svn_client_conflict_prop_get_resolution_options : List OptionId :=
  prop_conflict_options

/-- `svn_tribool_t`: three-valued booleans used in edit details. -/
inductive Tribool where
  | false
  | true
  | unknown
  deriving DecidableEq, Repr

/-- `struct conflict_tree_incoming_edit_details`. -/
structure ConflictTreeIncomingEditDetails where
  rev : Int
  author : String
  text_modified : Tribool
  props_modified : Tribool
  children_modified : Tribool
  repos_relpath : String
  deriving DecidableEq, Repr

/-- One printed item of the revision list built by
`describe_incoming_edit_list_modified_revs`: either an " rN by AUTHOR"
fragment (with or without a trailing comma) or the
"[N revisions omitted for brevity]" placeholder. -/
inductive RevListItem where
  | rev (r : Int) (author : String) (comma : Bool)
  | omitted (n : Nat)
  deriving DecidableEq, Repr

/-- `describe_incoming_edit_list_modified_revs`: renders the list of
modifying revisions, inserting a single placeholder for the middle of the
range when the list is long.  The string concatenation of the C code is
modelled as the list of appended fragments, in order. -/
def describe_incoming_edit_list_modified_revs
    (edits : List ConflictTreeIncomingEditDetails) : List RevListItem :=
  let nelts := edits.length
  let max_revs_to_display := 8
  let min_revs_for_skipping := 5
  let num_revs_to_skip :=
    if nelts ≤ max_revs_to_display then 0
    else
      let nskip := nelts - max_revs_to_display
      if nskip < min_revs_for_skipping then 0 else nskip
  edits.enum.flatMap fun p =>
    let i := p.1
    let details := p.2
    if num_revs_to_skip > 0 then
      if i < max_revs_to_display / 2 then
        [RevListItem.rev details.rev details.author (decide (i < nelts - 1))]
      else if max_revs_to_display / 2 ≤ i ∧
              i < nelts - max_revs_to_display / 2 then
        []
      else
        (if i = nelts - max_revs_to_display / 2 then
           [RevListItem.omitted num_revs_to_skip]
         else []) ++
        [RevListItem.rev details.rev details.author (decide (i < nelts - 1))]
    else
      [RevListItem.rev details.rev details.author (decide (i < nelts - 1))]

/-- Proof-only view of the loop body of
`describe_incoming_edit_list_modified_revs` (definitionally equal to the
inlined body; see `describe_incoming_edit_list_modified_revs_eq`). -/
def revItemBody (nelts skip : Nat) (p : Nat × ConflictTreeIncomingEditDetails) :
    List RevListItem :=
  if 0 < skip then
    if p.1 < 4 then
      [RevListItem.rev p.2.rev p.2.author (decide (p.1 < nelts - 1))]
    else if 4 ≤ p.1 ∧ p.1 < nelts - 4 then
      []
    else
      (if p.1 = nelts - 4 then [RevListItem.omitted skip] else []) ++
      [RevListItem.rev p.2.rev p.2.author (decide (p.1 < nelts - 1))]
  else
    [RevListItem.rev p.2.rev p.2.author (decide (p.1 < nelts - 1))]

/-- Proof-only view of the `num_revs_to_skip` computation. -/
def revSkip (nelts : Nat) : Nat :=
  if nelts ≤ 8 then 0
  else if nelts - 8 < 5 then 0 else nelts - 8

/-- `svn_wc_conflict_kind_t`. -/
inductive ConflictKind where
  | text
  | property
  | tree
  deriving DecidableEq, Repr

/-- `svn_wc_conflict_version_t`: one side of an incoming change. -/
structure WcConflictVersion where
  repos_url : String
  repos_uuid : String
  path_in_repos : String
  peg_rev : Int
  node_kind : NodeKind
  deriving DecidableEq, Repr

/-- The fields of the legacy `svn_wc_conflict_description2_t` read by the
engine. -/
structure WcConflictDescription2 where
  kind : ConflictKind
  operation : WcOperation
  action : ConflictAction
  reason : ConflictReason
  node_kind : NodeKind
  property_name : Option String
  src_left_version : Option WcConflictVersion
  src_right_version : Option WcConflictVersion
  deriving DecidableEq, Repr

/-- `struct conflict_tree_incoming_delete_details`.  The `move` pointer is
modelled as an optional index into the move scanner's arena. -/
structure ConflictTreeIncomingDeleteDetails where
  deleted_rev : Int
  added_rev : Int
  repos_relpath : String
  rev_author : String
  replacing_node_kind : NodeKind
  move : Option Nat
  deriving DecidableEq, Repr

/-- `struct svn_client_conflict_t` (the fields the embedded operations
touch).  `tree_conflict_incoming_details` holds incoming-delete details when
the incoming change is a deletion (the C field is a `void *`). -/
structure SvnClientConflict where
  local_abspath : String
  prop_conflicts : Option (List (String × WcConflictDescription2))
  resolution_text : OptionId
  resolution_tree : OptionId
  resolved_props : List (String × OptionId)
  tree_conflict_incoming_details : Option ConflictTreeIncomingDeleteDetails
  legacy_text_conflict : Option WcConflictDescription2
  legacy_prop_conflict_propname : Option String
  legacy_tree_conflict : Option WcConflictDescription2
  deriving DecidableEq, Repr

/-- `get_conflict_desc2_t`: the legacy descriptor wrapped by the conflict
(text first, then tree, then the tracked property conflict). -/
def get_conflict_desc2_t (c : SvnClientConflict) :
    Option WcConflictDescription2 :=
  match c.legacy_text_conflict with
  | some desc => some desc
  | none =>
    match c.legacy_tree_conflict with
    | some desc => some desc
    | none =>
      match c.prop_conflicts, c.legacy_prop_conflict_propname with
      | some conflicts, some name => conflicts.lookup name
      | _, _ => none

/-- `svn_client_conflict_get_operation`.  The C code dereferences the
descriptor unconditionally; callers guarantee one is present, so the
default is unreachable in legal uses. -/
def svn_client_conflict_get_operation (c : SvnClientConflict) : WcOperation :=
  ((get_conflict_desc2_t c).map (·.operation)).getD WcOperation.none

/-- `svn_client_conflict_get_incoming_change`. -/
def svn_client_conflict_get_incoming_change (c : SvnClientConflict) :
    ConflictAction :=
  ((get_conflict_desc2_t c).map (·.action)).getD ConflictAction.edit

/-- `svn_client_conflict_get_local_change`. -/
def svn_client_conflict_get_local_change (c : SvnClientConflict) :
    ConflictReason :=
  ((get_conflict_desc2_t c).map (·.reason)).getD ConflictReason.edited

/-- `svn_client_conflict_tree_get_victim_node_kind`. -/
def svn_client_conflict_tree_get_victim_node_kind (c : SvnClientConflict) :
    NodeKind :=
  ((get_conflict_desc2_t c).map (·.node_kind)).getD NodeKind.unknown

/-- `svn_client_conflict_get_incoming_old_repos_location`: the repos relpath
output (NULL when the descriptor has no left version). -/
def svn_client_conflict_get_incoming_old_repos_location
    (c : SvnClientConflict) : Option String × Int × NodeKind :=
  match (get_conflict_desc2_t c).bind (·.src_left_version) with
  | some v => (some v.path_in_repos, v.peg_rev, v.node_kind)
  | none => (none, SVN_INVALID_REVNUM, NodeKind.none)

/-- `svn_client_conflict_get_incoming_new_repos_location`. -/
def svn_client_conflict_get_incoming_new_repos_location
    (c : SvnClientConflict) : Option String × Int × NodeKind :=
  match (get_conflict_desc2_t c).bind (·.src_right_version) with
  | some v => (some v.path_in_repos, v.peg_rev, v.node_kind)
  | none => (none, SVN_INVALID_REVNUM, NodeKind.none)

/-- `svn_client_conflict_get_conflicted`: each output is produced only when
its result pointer is non-NULL (modelled by the three `want` flags). -/
def svn_client_conflict_get_conflicted
    (want_text want_props want_tree : Bool) (c : SvnClientConflict) :
    Option Bool × Option (List String) × Option Bool :=
  ( if want_text then some c.legacy_text_conflict.isSome else none,
    if want_props then
      some (match c.prop_conflicts with
            | some conflicts => conflicts.map Prod.fst
            | none => [])
    else none,
    if want_tree then some c.legacy_tree_conflict.isSome else none )

/-- The working-copy and I/O operations a resolver performs, as supplied by
the environment (libsvn_wc and svn_io are external collaborators). -/
structure WcEnv where
  wcroot : Except SvnErr String
  node_origin : Except SvnErr (Bool × Int × String)
  check_path_local : Except SvnErr NodeKind
  acquire_write_lock : Except SvnErr String
  del_tree_conflict : Except SvnErr Unit
  delete4 : Except SvnErr Unit
  release_write_lock : Except SvnErr Unit

/-- Turn an `Except` result into the `svn_error_t *` convention
(`none` = `SVN_NO_ERROR`). -/
def exceptErr : Except SvnErr Unit → Option SvnErr
  | .ok () => none
  | .error e => some e

/-- `verify_local_state_for_incoming_delete`. -/
def verify_local_state_for_incoming_delete (env : WcEnv)
    (c : SvnClientConflict) : Except SvnErr Unit :=
  match env.wcroot with
  | .error e => .error e
  | .ok _wcroot_abspath =>
    let operation := svn_client_conflict_get_operation c
    if operation = WcOperation.update ∨ operation = WcOperation.switch then
      match c.tree_conflict_incoming_details with
      | none => .error (SvnErr.mk1 ErrCode.WC_CONFLICT_RESOLVER_FAILURE)
      | some details =>
        match env.node_origin with
        | .error e => .error e
        | .ok (is_copy, copyfrom_rev, copyfrom_repos_relpath) =>
          if ¬ is_copy then
            .error (SvnErr.mk1 ErrCode.WC_CONFLICT_RESOLVER_FAILURE)
          else if details.deleted_rev = SVN_INVALID_REVNUM ∧
                  details.added_rev = SVN_INVALID_REVNUM then
            .error (SvnErr.mk1 ErrCode.WC_CONFLICT_RESOLVER_FAILURE)
          else if details.deleted_rev ≠ SVN_INVALID_REVNUM ∧
                  copyfrom_rev ≥ details.deleted_rev then
            .error (SvnErr.mk1 ErrCode.WC_CONFLICT_RESOLVER_FAILURE)
          else if details.added_rev ≠ SVN_INVALID_REVNUM ∧
                  copyfrom_rev < details.added_rev then
            .error (SvnErr.mk1 ErrCode.WC_CONFLICT_RESOLVER_FAILURE)
          else if operation = WcOperation.update ∧
                  copyfrom_repos_relpath ≠ details.repos_relpath then
            .error (SvnErr.mk1 ErrCode.WC_CONFLICT_RESOLVER_FAILURE)
          else if operation = WcOperation.switch then
            let old_repos_relpath :=
              (svn_client_conflict_get_incoming_old_repos_location c).1
            if some copyfrom_repos_relpath ≠ old_repos_relpath then
              .error (SvnErr.mk1 ErrCode.WC_CONFLICT_RESOLVER_FAILURE)
            else
              .ok ()
          else
            .ok ()
    else if operation = WcOperation.merge then
      let victim_node_kind := svn_client_conflict_tree_get_victim_node_kind c
      match env.check_path_local with
      | .error e => .error e
      | .ok on_disk_kind =>
        if victim_node_kind ≠ on_disk_kind then
          .error (SvnErr.mk1 ErrCode.WC_CONFLICT_RESOLVER_FAILURE)
        else
          .ok ()
    else
      .ok ()

/-- What a resolver run produced: the post-state of the conflict object,
whether the working-copy tree-conflict marker was removed
(`svn_wc__del_tree_conflict` succeeded), whether the victim was removed
(`svn_wc_delete4` succeeded), and the returned error. -/
structure ResolveOutcome where
  conflict : SvnClientConflict
  tree_conflict_cleared : Bool
  node_deleted : Bool
  result : Option SvnErr
  deriving Repr

/-- `resolve_incoming_delete_ignore`. -/
def resolve_incoming_delete_ignore (env : WcEnv) (option_id : OptionId)
    (c : SvnClientConflict) : ResolveOutcome :=
  match env.acquire_write_lock with
  | .error e => ⟨c, false, false, some e⟩
  | .ok _lock_abspath =>
    let step : Option SvnErr × Bool :=
      match verify_local_state_for_incoming_delete env c with
      | .error e => (some e, false)
      | .ok () =>
        match env.del_tree_conflict with
        | .error e => (some e, false)
        | .ok () => (none, true)
    match svn_error_compose_create step.1 (exceptErr env.release_write_lock)
    with
    | some e => ⟨c, step.2, false, some e⟩
    | none => ⟨{ c with resolution_tree := option_id }, step.2, false, none⟩

/-- `resolve_incoming_delete_accept`. -/
def resolve_incoming_delete_accept (env : WcEnv) (option_id : OptionId)
    (c : SvnClientConflict) : ResolveOutcome :=
  match env.acquire_write_lock with
  | .error e => ⟨c, false, false, some e⟩
  | .ok _lock_abspath =>
    let step : Option SvnErr × Bool :=
      match verify_local_state_for_incoming_delete env c with
      | .error e => (some e, false)
      | .ok () =>
        match env.delete4 with
        | .error e => (some e, false)
        | .ok () => (none, true)
    match svn_error_compose_create step.1 (exceptErr env.release_write_lock)
    with
    | some e => ⟨c, false, step.2, some e⟩
    | none => ⟨{ c with resolution_tree := option_id }, false, step.2, none⟩

/-- `resolve_accept_current_wc_state`. -/
def resolve_accept_current_wc_state (env : WcEnv) (option_id : OptionId)
    (c : SvnClientConflict) : ResolveOutcome :=
  if option_id ≠ OptionId.accept_current_wc_state then
    ⟨c, false, false, some (SvnErr.mk1 ErrCode.WC_CONFLICT_RESOLVER_FAILURE)⟩
  else
    match env.acquire_write_lock with
    | .error e => ⟨c, false, false, some e⟩
    | .ok _lock_abspath =>
      let step : Option SvnErr × Bool :=
        match env.del_tree_conflict with
        | .error e => (some e, false)
        | .ok () => (none, true)
      match svn_error_compose_create step.1 (exceptErr env.release_write_lock)
      with
      | some e => ⟨c, step.2, false, some e⟩
      | none => ⟨{ c with resolution_tree := option_id }, step.2, false, none⟩

/-- Names of the `conflict_option_resolve_func_t` implementations a
configured option is bound to. -/
inductive ResolverTag where
  | resolve_postpone
  | resolve_text_conflict
  | resolve_prop_conflict
  | resolve_accept_current_wc_state
  | resolve_update_break_moved_away
  | resolve_update_raise_moved_away
  | resolve_update_moved_away_node
  | resolve_merge_incoming_add_ignore
  | resolve_merge_incoming_added_file_text_merge
  | resolve_merge_incoming_added_file_replace
  | resolve_merge_incoming_added_file_replace_and_merge
  | resolve_merge_incoming_added_dir_merge
  | resolve_merge_incoming_added_dir_replace
  | resolve_merge_incoming_added_dir_replace_and_merge
  | resolve_incoming_delete_ignore
  | resolve_incoming_delete_accept
  deriving DecidableEq, Repr

/-- A configured resolution option: its id and the resolver it is bound
to (`svn_client_conflict_option_t.id` / `do_resolve_func`). -/
structure ConfiguredOption where
  id : OptionId
  resolver : ResolverTag
  deriving DecidableEq, Repr

/-- `configure_option_accept_current_wc_state`: always adds the option; it
is bound to the break-moved-away resolver for update/switch edits against
moved-away/deleted/replaced nodes, else to the plain resolver. -/
def configure_option_accept_current_wc_state (c : SvnClientConflict) :
    List ConfiguredOption :=
  let operation := svn_client_conflict_get_operation c
  let incoming_change := svn_client_conflict_get_incoming_change c
  let local_change := svn_client_conflict_get_local_change c
  let resolver :=
    if (operation = WcOperation.update ∨ operation = WcOperation.switch) ∧
       (local_change = ConflictReason.moved_away ∨
        local_change = ConflictReason.deleted ∨
        local_change = ConflictReason.replaced) ∧
       incoming_change = ConflictAction.edit then
      ResolverTag.resolve_update_break_moved_away
    else
      ResolverTag.resolve_accept_current_wc_state
  [⟨OptionId.accept_current_wc_state, resolver⟩]

/-- `configure_option_update_move_destination`. -/
def configure_option_update_move_destination (c : SvnClientConflict) :
    List ConfiguredOption :=
  let operation := svn_client_conflict_get_operation c
  let incoming_change := svn_client_conflict_get_incoming_change c
  let local_change := svn_client_conflict_get_local_change c
  if (operation = WcOperation.update ∨ operation = WcOperation.switch) ∧
     incoming_change = ConflictAction.edit ∧
     local_change = ConflictReason.moved_away then
    [⟨OptionId.update_move_destination,
      ResolverTag.resolve_update_moved_away_node⟩]
  else
    []

/-- `configure_option_update_raise_moved_away_children`. -/
def configure_option_update_raise_moved_away_children
    (c : SvnClientConflict) : List ConfiguredOption :=
  let operation := svn_client_conflict_get_operation c
  let incoming_change := svn_client_conflict_get_incoming_change c
  let local_change := svn_client_conflict_get_local_change c
  let victim_node_kind := svn_client_conflict_tree_get_victim_node_kind c
  if (operation = WcOperation.update ∨ operation = WcOperation.switch) ∧
     incoming_change = ConflictAction.edit ∧
     (local_change = ConflictReason.deleted ∨
      local_change = ConflictReason.replaced) ∧
     victim_node_kind = NodeKind.dir then
    [⟨OptionId.update_any_moved_away_children,
      ResolverTag.resolve_update_raise_moved_away⟩]
  else
    []

/-- `configure_option_merge_incoming_add_ignore`. -/
def configure_option_merge_incoming_add_ignore (c : SvnClientConflict) :
    List ConfiguredOption :=
  let operation := svn_client_conflict_get_operation c
  let incoming_change := svn_client_conflict_get_incoming_change c
  let local_change := svn_client_conflict_get_local_change c
  if operation = WcOperation.merge ∧
     incoming_change = ConflictAction.add ∧
     local_change = ConflictReason.obstructed then
    [⟨OptionId.merge_incoming_add_ignore,
      ResolverTag.resolve_merge_incoming_add_ignore⟩]
  else
    []

/-- `configure_option_merge_incoming_added_file_text_merge`. -/
def configure_option_merge_incoming_added_file_text_merge
    (c : SvnClientConflict) : List ConfiguredOption :=
  let operation := svn_client_conflict_get_operation c
  let incoming_change := svn_client_conflict_get_incoming_change c
  let local_change := svn_client_conflict_get_local_change c
  let victim_node_kind := svn_client_conflict_tree_get_victim_node_kind c
  let incoming_new_kind :=
    (svn_client_conflict_get_incoming_new_repos_location c).2.2
  if operation = WcOperation.merge ∧
     victim_node_kind = NodeKind.file ∧
     incoming_new_kind = NodeKind.file ∧
     incoming_change = ConflictAction.add ∧
     local_change = ConflictReason.obstructed then
    [⟨OptionId.merge_incoming_added_file_text_merge,
      ResolverTag.resolve_merge_incoming_added_file_text_merge⟩]
  else
    []

/-- `configure_option_merge_incoming_added_file_replace`. -/
def configure_option_merge_incoming_added_file_replace
    (c : SvnClientConflict) : List ConfiguredOption :=
  let operation := svn_client_conflict_get_operation c
  let incoming_change := svn_client_conflict_get_incoming_change c
  let local_change := svn_client_conflict_get_local_change c
  let victim_node_kind := svn_client_conflict_tree_get_victim_node_kind c
  let incoming_new_kind :=
    (svn_client_conflict_get_incoming_new_repos_location c).2.2
  if operation = WcOperation.merge ∧
     victim_node_kind = NodeKind.file ∧
     incoming_new_kind = NodeKind.file ∧
     incoming_change = ConflictAction.add ∧
     local_change = ConflictReason.obstructed then
    [⟨OptionId.merge_incoming_added_file_replace,
      ResolverTag.resolve_merge_incoming_added_file_replace⟩]
  else
    []

/-- `configure_option_merge_incoming_added_file_replace_and_merge`. -/
def configure_option_merge_incoming_added_file_replace_and_merge
    (c : SvnClientConflict) : List ConfiguredOption :=
  let operation := svn_client_conflict_get_operation c
  let incoming_change := svn_client_conflict_get_incoming_change c
  let local_change := svn_client_conflict_get_local_change c
  let victim_node_kind := svn_client_conflict_tree_get_victim_node_kind c
  let incoming_new_kind :=
    (svn_client_conflict_get_incoming_new_repos_location c).2.2
  if operation = WcOperation.merge ∧
     victim_node_kind = NodeKind.file ∧
     incoming_new_kind = NodeKind.file ∧
     incoming_change = ConflictAction.add ∧
     local_change = ConflictReason.obstructed then
    [⟨OptionId.merge_incoming_added_file_replace_and_merge,
      ResolverTag.resolve_merge_incoming_added_file_replace_and_merge⟩]
  else
    []

/-- `configure_option_merge_incoming_added_dir_merge`. -/
def configure_option_merge_incoming_added_dir_merge
    (c : SvnClientConflict) : List ConfiguredOption :=
  let operation := svn_client_conflict_get_operation c
  let incoming_change := svn_client_conflict_get_incoming_change c
  let local_change := svn_client_conflict_get_local_change c
  let victim_node_kind := svn_client_conflict_tree_get_victim_node_kind c
  let incoming_new_kind :=
    (svn_client_conflict_get_incoming_new_repos_location c).2.2
  if operation = WcOperation.merge ∧
     victim_node_kind = NodeKind.dir ∧
     incoming_new_kind = NodeKind.dir ∧
     incoming_change = ConflictAction.add ∧
     local_change = ConflictReason.obstructed then
    [⟨OptionId.merge_incoming_added_dir_merge,
      ResolverTag.resolve_merge_incoming_added_dir_merge⟩]
  else
    []

/-- `configure_option_merge_incoming_added_dir_replace`. -/
def configure_option_merge_incoming_added_dir_replace
    (c : SvnClientConflict) : List ConfiguredOption :=
  let operation := svn_client_conflict_get_operation c
  let incoming_change := svn_client_conflict_get_incoming_change c
  let local_change := svn_client_conflict_get_local_change c
  let victim_node_kind := svn_client_conflict_tree_get_victim_node_kind c
  let incoming_new_kind :=
    (svn_client_conflict_get_incoming_new_repos_location c).2.2
  if operation = WcOperation.merge ∧
     victim_node_kind = NodeKind.dir ∧
     incoming_new_kind = NodeKind.dir ∧
     incoming_change = ConflictAction.add ∧
     local_change = ConflictReason.obstructed then
    [⟨OptionId.merge_incoming_added_dir_replace,
      ResolverTag.resolve_merge_incoming_added_dir_replace⟩]
  else
    []

/-- `configure_option_merge_incoming_added_dir_replace_and_merge`. -/
def configure_option_merge_incoming_added_dir_replace_and_merge
    (c : SvnClientConflict) : List ConfiguredOption :=
  let operation := svn_client_conflict_get_operation c
  let incoming_change := svn_client_conflict_get_incoming_change c
  let local_change := svn_client_conflict_get_local_change c
  let victim_node_kind := svn_client_conflict_tree_get_victim_node_kind c
  let incoming_new_kind :=
    (svn_client_conflict_get_incoming_new_repos_location c).2.2
  if operation = WcOperation.merge ∧
     victim_node_kind = NodeKind.dir ∧
     incoming_new_kind = NodeKind.dir ∧
     incoming_change = ConflictAction.add ∧
     local_change = ConflictReason.obstructed then
    [⟨OptionId.merge_incoming_added_dir_replace_and_merge,
      ResolverTag.resolve_merge_incoming_added_dir_replace_and_merge⟩]
  else
    []

/-- `configure_option_incoming_delete_ignore`. -/
def configure_option_incoming_delete_ignore (c : SvnClientConflict) :
    List ConfiguredOption :=
  let incoming_change := svn_client_conflict_get_incoming_change c
  if incoming_change = ConflictAction.delete then
    [⟨OptionId.incoming_delete_ignore,
      ResolverTag.resolve_incoming_delete_ignore⟩]
  else
    []

/-- `configure_option_incoming_delete_accept`. -/
def configure_option_incoming_delete_accept (c : SvnClientConflict) :
    List ConfiguredOption :=
  let incoming_change := svn_client_conflict_get_incoming_change c
  if incoming_change = ConflictAction.delete then
    [⟨OptionId.incoming_delete_accept,
      ResolverTag.resolve_incoming_delete_accept⟩]
  else
    []

/-- `svn_client_conflict_tree_get_resolution_options`: postpone first, then
the accept-current-wc-state option, then every conditionally applicable
option in configuration order. -/
def svn_client_conflict_tree_get_resolution_options (c : SvnClientConflict) :
    List ConfiguredOption :=
  ⟨OptionId.postpone, ResolverTag.resolve_postpone⟩
  :: (configure_option_accept_current_wc_state c
      ++ configure_option_update_move_destination c
      ++ configure_option_update_raise_moved_away_children c
      ++ configure_option_merge_incoming_add_ignore c
      ++ configure_option_merge_incoming_added_file_text_merge c
      ++ configure_option_merge_incoming_added_file_replace c
      ++ configure_option_merge_incoming_added_file_replace_and_merge c
      ++ configure_option_merge_incoming_added_dir_merge c
      ++ configure_option_merge_incoming_added_dir_replace c
      ++ configure_option_merge_incoming_added_dir_replace_and_merge c
      ++ configure_option_incoming_delete_ignore c
      ++ configure_option_incoming_delete_accept c)

/-- `svn_client_conflict_option_find_by_id`: first option in the array with
the wanted id, else NULL. -/
def svn_client_conflict_option_find_by_id (options : List ConfiguredOption)
    (option_id : OptionId) : Option ConfiguredOption :=
  options.find? (fun o => o.id = option_id)

/-- `svn_client_conflict_text_resolve_by_id`: look the id up among the text
resolution options and invoke the found option's resolver; ids not in the
list fail with `SVN_ERR_CLIENT_CONFLICT_OPTION_NOT_APPLICABLE`.  The text
option tables bind every non-postpone entry to `resolve_text_conflict`;
the returned value is the id of the option whose resolver ran. -/
def svn_client_conflict_text_resolve_by_id (mime_type_is_binary : Bool)
    (option_id : OptionId) : Except SvnErr OptionId :=
  let resolution_options :=
    svn_client_conflict_text_get_resolution_options mime_type_is_binary
  match resolution_options.find? (fun o => o = option_id) with
  | some o => .ok o
  | none => .error (SvnErr.mk1 ErrCode.CLIENT_CONFLICT_OPTION_NOT_APPLICABLE)

/-- `svn_client_conflict_prop_resolve_by_id`. -/
def svn_client_conflict_prop_resolve_by_id (option_id : OptionId) :
    Except SvnErr OptionId :=
  let resolution_options := svn_client_conflict_prop_get_resolution_options
  match resolution_options.find? (fun o => o = option_id) with
  | some o => .ok o
  | none => .error (SvnErr.mk1 ErrCode.CLIENT_CONFLICT_OPTION_NOT_APPLICABLE)

/-- `svn_client_conflict_tree_resolve_by_id`: applies the two backwards
compatibility rewrites for Subversion 1.9 clients, then looks the id up in
the tree resolution options; the returned option names the resolver that
`svn_client_conflict_tree_resolve` invokes. -/
def svn_client_conflict_tree_resolve_by_id (c : SvnClientConflict)
    (option_id : OptionId) : Except SvnErr ConfiguredOption :=
  let option_id :=
    if option_id = OptionId.working_text_where_conflicted then
      let operation := svn_client_conflict_get_operation c
      if operation = WcOperation.update ∨ operation = WcOperation.switch then
        let reason := svn_client_conflict_get_local_change c
        if reason = ConflictReason.moved_away then
          OptionId.update_move_destination
        else if reason = ConflictReason.deleted ∨
                reason = ConflictReason.replaced then
          let action := svn_client_conflict_get_incoming_change c
          let node_kind := svn_client_conflict_tree_get_victim_node_kind c
          if action = ConflictAction.edit ∧ node_kind = NodeKind.dir then
            OptionId.update_any_moved_away_children
          else
            option_id
        else
          option_id
      else
        option_id
    else if option_id = OptionId.merged_text then
      OptionId.accept_current_wc_state
    else
      option_id
  match svn_client_conflict_option_find_by_id
      (svn_client_conflict_tree_get_resolution_options c) option_id with
  | some o => .ok o
  | none => .error (SvnErr.mk1 ErrCode.CLIENT_CONFLICT_OPTION_NOT_APPLICABLE)

/-- Proof-only view of the backwards-compatibility id rewrite performed at
the top of `svn_client_conflict_tree_resolve_by_id`. -/
def tree_resolution_alias (c : SvnClientConflict) (option_id : OptionId) :
    OptionId :=
  if option_id = OptionId.working_text_where_conflicted then
    let operation := svn_client_conflict_get_operation c
    if operation = WcOperation.update ∨ operation = WcOperation.switch then
      let reason := svn_client_conflict_get_local_change c
      if reason = ConflictReason.moved_away then
        OptionId.update_move_destination
      else if reason = ConflictReason.deleted ∨
              reason = ConflictReason.replaced then
        let action := svn_client_conflict_get_incoming_change c
        let node_kind := svn_client_conflict_tree_get_victim_node_kind c
        if action = ConflictAction.edit ∧ node_kind = NodeKind.dir then
          OptionId.update_any_moved_away_children
        else
          option_id
      else
        option_id
    else
      option_id
  else if option_id = OptionId.merged_text then
    OptionId.accept_current_wc_state
  else
    option_id

/-- `svn_location_segment_t`: a path (NULL for gaps in history) and the
revision range it covers. -/
structure LocationSegment where
  path : Option String
  range_start : Int
  range_end : Int
  deriving DecidableEq, Repr

/-- `struct find_added_rev_baton`. -/
structure FindAddedRevBaton where
  added_rev : Int
  repos_relpath : Option String
  parent_repos_relpath : Option String
  deriving DecidableEq, Repr

/-- Modelled from the spec: `svn_relpath_skip_ancestor` lives in
libsvn_subr, which is not under src/.  Per §4.4 a location segment is
accepted when its path "lies under that parent"; the function returns
non-NULL exactly when the path equals the ancestor or is below it (the
empty relpath is everything's ancestor). -/
def relpath_is_under (parent path : String) : Bool :=
  if parent = "" then true
  else path == parent || (parent ++ "/").isPrefixOf path

/-- `find_added_rev` (an `svn_location_segment_receiver_t`): remembers the
start revision of each non-gap segment that passes the optional parent
filter; the last segment received wins. -/
def find_added_rev (b : FindAddedRevBaton) (segment : LocationSegment) :
    FindAddedRevBaton :=
  match segment.path with
  | none => b
  | some path =>
    match b.parent_repos_relpath with
    | none =>
      { b with added_rev := segment.range_start, repos_relpath := some path }
    | some parent =>
      if relpath_is_under parent path then
        { b with added_rev := segment.range_start, repos_relpath := some path }
      else
        b

/-- The repository-session operations used while gathering incoming-delete
details, as supplied by the environment (the RA layer is an external
collaborator). -/
structure RaEnv where
  open_ra_session : Except SvnErr Unit
  location_segments : Except SvnErr (List LocationSegment)
  rev_prop_author : Int → Except SvnErr String
  check_path : Int → Except SvnErr NodeKind

/-- Modelled from the spec: `svn_ra_rev_prop` belongs to the RepoSession
boundary (§4.1), implemented outside src/; revision numbers are "32-bit
signed with sentinel invalid" (§6) and the RA layer accepts only valid
(non-negative) revisions, failing with a typed error otherwise. -/
def svn_ra_rev_prop (env : RaEnv) (rev : Int) : Except SvnErr String :=
  if rev < 0 then .error (SvnErr.mk1 ErrCode.ASSERTION_FAIL)
  else env.rev_prop_author rev

/-- `get_incoming_delete_details_for_reverse_addition`: when a revision
which added the node is applied in reverse, locate the addition via
location segments, fetch the author of the addition revision, and check
whether the addition replaced an earlier node. -/
def get_incoming_delete_details_for_reverse_addition (env : RaEnv)
    (_old_repos_relpath : String) (_old_rev _new_rev : Int) :
    Except SvnErr ConflictTreeIncomingDeleteDetails :=
  match env.open_ra_session with
  | .error e => .error e
  | .ok () =>
    match env.location_segments with
    | .error e => .error e
    | .ok segments =>
      let b := segments.foldl find_added_rev
        ⟨SVN_INVALID_REVNUM, none, none⟩
      match svn_ra_rev_prop env b.added_rev with
      | .error e => .error e
      | .ok author =>
        let details : ConflictTreeIncomingDeleteDetails :=
          ⟨SVN_INVALID_REVNUM, b.added_rev, (b.repos_relpath).getD "",
           author, NodeKind.none, none⟩
        if details.added_rev > 0 then
          match env.check_path (details.added_rev - 1) with
          | .error e => .error e
          | .ok replaced_node_kind =>
            if replaced_node_kind ≠ NodeKind.none then
              match env.check_path details.added_rev with
              | .error e => .error e
              | .ok k => .ok { details with replacing_node_kind := k }
            else
              .ok details
        else
          .ok details

/-- `conflict_tree_get_details_incoming_delete`.  The log walk performed by
`find_revision_for_suspected_deletion` contacts the repository; its result
(deleted revision or the invalid sentinel, author, replacing node kind and
matched move) is supplied by the environment. -/
def conflict_tree_get_details_incoming_delete (env : RaEnv)
    (find_deletion : Except SvnErr (Int × String × NodeKind × Option Nat))
    (c : SvnClientConflict) : Except SvnErr SvnClientConflict :=
  let old_loc := svn_client_conflict_get_incoming_old_repos_location c
  let new_loc := svn_client_conflict_get_incoming_new_repos_location c
  let old_repos_relpath := old_loc.1
  let old_rev := old_loc.2.1
  let new_repos_relpath := new_loc.1
  let new_rev := new_loc.2.1
  let operation := svn_client_conflict_get_operation c
  if operation = WcOperation.update then
    if old_rev < new_rev then
      match find_deletion with
      | .error e => .error e
      | .ok (deleted_rev, deleted_rev_author, replacing_node_kind, move) =>
        if deleted_rev = SVN_INVALID_REVNUM then
          .ok c
        else
          let details : ConflictTreeIncomingDeleteDetails :=
            ⟨deleted_rev, SVN_INVALID_REVNUM,
             new_repos_relpath.getD "", deleted_rev_author,
             replacing_node_kind, move⟩
          .ok { c with tree_conflict_incoming_details := some details }
    else
      match get_incoming_delete_details_for_reverse_addition env
          (old_repos_relpath.getD "") old_rev new_rev with
      | .error e => .error e
      | .ok details =>
        .ok { c with tree_conflict_incoming_details := some details }
  else if operation = WcOperation.switch ∨ operation = WcOperation.merge then
    if old_rev < new_rev then
      match find_deletion with
      | .error e => .error e
      | .ok (deleted_rev, deleted_rev_author, replacing_node_kind, move) =>
        if deleted_rev = SVN_INVALID_REVNUM then
          .ok c
        else
          let details : ConflictTreeIncomingDeleteDetails :=
            ⟨deleted_rev, SVN_INVALID_REVNUM,
             new_repos_relpath.getD "", deleted_rev_author,
             replacing_node_kind, move⟩
          .ok { c with tree_conflict_incoming_details := some details }
    else
      match get_incoming_delete_details_for_reverse_addition env
          (old_repos_relpath.getD "") old_rev new_rev with
      | .error e => .error e
      | .ok details =>
        .ok { c with tree_conflict_incoming_details := some details }
  else
    .ok { c with tree_conflict_incoming_details := none }

/-- `struct repos_move_info`.  The `prev`/`next` pointers are indices into
the owning arena (the scan's result pool). -/
structure ReposMoveInfo where
  moved_from_repos_relpath : String
  moved_to_repos_relpath : String
  rev : Int
  rev_author : String
  copyfrom_rev : Int
  prev : Option Nat
  next : Option Nat
  deriving DecidableEq, Repr

/-- The descriptive fields of a move (everything except the chain
pointers, which later scan steps may relink). -/
def ReposMoveInfo.data (m : ReposMoveInfo) :
    String × String × Int × String × Int :=
  (m.moved_from_repos_relpath, m.moved_to_repos_relpath, m.rev,
   m.rev_author, m.copyfrom_rev)

/-- `struct copy_info`. -/
structure CopyInfo where
  copyto_path : String
  copyfrom_path : String
  copyfrom_rev : Int
  deriving DecidableEq, Repr

/-- `svn_log_entry_t` (the fields the scanner reads; the author revprop is
taken from `revprops[SVN_PROP_REVISION_AUTHOR]`). -/
structure LogEntry where
  revision : Int
  author : String
  deriving DecidableEq, Repr

/-- `svn_hash_sets`: overwrite the binding for the key, or add one. -/
def hashSet {α β : Type} [BEq α] : List (α × β) → α → β → List (α × β)
  | [], k, v => [(k, v)]
  | (k', v') :: rest, k, v =>
    if k' == k then (k, v) :: rest else (k', v') :: hashSet rest k v

/-- The scan state shared by successive `find_moves_in_revision` calls:
the arena owning every discovered move, the moves table indexed by
revision, and the transient `moved_paths` map from a from-relpath to the
head of its chain. -/
structure MoveScanState where
  arena : List ReposMoveInfo
  moves_table : List (Int × List Nat)
  moved_paths : List (String × Nat)
  deriving DecidableEq, Repr

/-- The empty state set up by the scan's caller. -/
def MoveScanState.initial : MoveScanState := ⟨[], [], []⟩

/-- The repository access used by `check_move_ancestry`:
`get_locations(deleted_relpath, peg_rev, [wanted_rev])`, returning the
node's historical location at `wanted_rev` (possibly with a leading
slash), or no location. -/
structure MoveScanEnv where
  get_locations : String → Int → Int → Except SvnErr (Option String)

/-- `check_move_ancestry`: trace the deleted node back from
`deleted_rev - 1` to `copyfrom_rev`; related iff the reported location
(leading slash stripped) equals the candidate's copyfrom path. -/
def check_move_ancestry (env : MoveScanEnv) (deleted_repos_relpath : String)
    (deleted_rev : Int) (copyfrom_path : String) (copyfrom_rev : Int) :
    Except SvnErr Bool :=
  match env.get_locations deleted_repos_relpath (deleted_rev - 1)
      copyfrom_rev with
  | .error e => .error e
  | .ok none => .ok false
  | .ok (some deleted_location) =>
    let deleted_location : String :=
      match deleted_location.data with
      | '/' :: rest => ⟨rest⟩
      | _ => deleted_location
    .ok (deleted_location == copyfrom_path)

/-- Record a discovered move: append it to the arena (whose earlier
entries `arena2` may have had a `prev` pointer updated), make it the head
of `moved_paths` for its from-path, and append its index to
`moves_table[rev]`. -/
def repos_move_add (st : MoveScanState) (arena2 : List ReposMoveInfo)
    (move : ReposMoveInfo) : MoveScanState :=
  let idx := st.arena.length
  { arena := arena2 ++ [move],
    moved_paths := hashSet st.moved_paths move.moved_from_repos_relpath idx,
    moves_table := hashSet st.moves_table move.rev
      (((st.moves_table.lookup move.rev).getD []) ++ [idx]) }

/-- The body of the inner loop of `find_moves_in_revision`: test one copy
candidate against one deleted path, record a move when the ancestry check
succeeds, and link it to a younger move of the same node when present
(`SVN_ERR_ASSERT(move->rev < next_move->rev)` fails the scan). -/
def find_moves_process_copy (env : MoveScanEnv) (log_entry : LogEntry)
    (deleted_repos_relpath : String) (st : MoveScanState) (copy : CopyInfo) :
    Except SvnErr MoveScanState :=
  match check_move_ancestry env deleted_repos_relpath log_entry.revision
      copy.copyfrom_path copy.copyfrom_rev with
  | .error e => .error e
  | .ok false => .ok st
  | .ok true =>
    let idx := st.arena.length
    let move : ReposMoveInfo :=
      ⟨deleted_repos_relpath, copy.copyto_path, log_entry.revision,
       log_entry.author, copy.copyfrom_rev, none, none⟩
    match st.moved_paths.lookup move.moved_to_repos_relpath with
    | none => .ok (repos_move_add st st.arena move)
    | some next_idx =>
      match st.arena.get? next_idx with
      | none =>
        -- unreachable for well-formed states: moved_paths only holds
        -- arena indices
        .ok (repos_move_add st st.arena move)
      | some next_move =>
        match check_move_ancestry env next_move.moved_from_repos_relpath
            next_move.rev move.moved_from_repos_relpath
            move.copyfrom_rev with
        | .error e => .error e
        | .ok false => .ok (repos_move_add st st.arena move)
        | .ok true =>
          if move.rev < next_move.rev then
            .ok (repos_move_add st
              (st.arena.set next_idx { next_move with prev := some idx })
              { move with next := some next_idx })
          else
            .error (SvnErr.mk1 ErrCode.ASSERTION_FAIL)

/-- `find_moves_in_revision`: for each deleted path, test every copy
sharing that copyfrom path. -/
def find_moves_in_revision (env : MoveScanEnv) (log_entry : LogEntry)
    (copies : List (String × List CopyInfo)) (deleted_paths : List String)
    (st : MoveScanState) : Except SvnErr MoveScanState :=
  deleted_paths.foldlM
    (fun st deleted_repos_relpath =>
      match copies.lookup deleted_repos_relpath with
      | none => .ok st
      | some copies_with_same_source_path =>
        copies_with_same_source_path.foldlM
          (find_moves_process_copy env log_entry deleted_repos_relpath) st)
    st

/-- Scan a sequence of log entries (the log driver delivers them
newest-first; each entry comes with its partitioned copies and deleted
paths). -/
def find_moves (env : MoveScanEnv)
    (entries : List (LogEntry × List (String × List CopyInfo) × List String)) :
    Except SvnErr MoveScanState :=
  entries.foldlM
    (fun st e => find_moves_in_revision env e.1 e.2.1 e.2.2 st)
    MoveScanState.initial

/-- Walk `n` steps along the `next` chain starting at arena index `i`. -/
def iterNext (arena : List ReposMoveInfo) : Nat → Nat → Option Nat
  | 0, i => some i
  | n + 1, i =>
    match arena[i]? with
    | none => none
    | some m =>
      match m.next with
      | none => none
      | some j => iterNext arena n j

/-- Well-formedness of a scan state: chain pointers stay inside the arena
and are strictly monotone in revision, and every recorded index is in
range. -/
def MoveStateWF (st : MoveScanState) : Prop :=
  (∀ (i : Nat) (m : ReposMoveInfo), st.arena[i]? = some m →
    (∀ j, m.next = some j →
      ∃ m2 : ReposMoveInfo, st.arena[j]? = some m2 ∧ m.rev < m2.rev) ∧
    (∀ j, m.prev = some j →
      ∃ m2 : ReposMoveInfo, st.arena[j]? = some m2 ∧ m2.rev < m.rev)) ∧
  (∀ p ∈ st.moved_paths, p.2 < st.arena.length) ∧
  (∀ e ∈ st.moves_table, ∀ i ∈ e.2, i < st.arena.length)

/-- The data quintuples of the moves recorded for `rev`, in table order. -/
def movesTableData (st : MoveScanState) (rev : Int) :
    List (String × String × Int × String × Int) :=
  ((st.moves_table.lookup rev).getD []).filterMap
    (fun i => st.arena[i]?.map ReposMoveInfo.data)

/-- `ancestry_ok`: whether `check_move_ancestry` verified the candidate
(successful call reporting related). -/
def ancestry_ok (env : MoveScanEnv) (deleted_repos_relpath : String)
    (deleted_rev : Int) (copyfrom_path : String) (copyfrom_rev : Int) :
    Bool :=
  match check_move_ancestry env deleted_repos_relpath deleted_rev
      copyfrom_path copyfrom_rev with
  | .ok Bool.true => Bool.true
  | _ => Bool.false

/-- Preconditions `verify_local_state_for_incoming_delete` checks for
update and switch operations, as the specification states them. -/
def verify_preconds (c : SvnClientConflict) (origin : Bool × Int × String) :
    Prop :=
  origin.1 = Bool.true ∧
  ∃ details, c.tree_conflict_incoming_details = some details ∧
    (details.deleted_rev ≠ SVN_INVALID_REVNUM ∨
     details.added_rev ≠ SVN_INVALID_REVNUM) ∧
    (details.deleted_rev ≠ SVN_INVALID_REVNUM →
      origin.2.1 < details.deleted_rev) ∧
    (details.added_rev ≠ SVN_INVALID_REVNUM →
      origin.2.1 ≥ details.added_rev) ∧
    (svn_client_conflict_get_operation c = WcOperation.update →
      origin.2.2 = details.repos_relpath) ∧
    (svn_client_conflict_get_operation c = WcOperation.switch →
      some origin.2.2 =
        (svn_client_conflict_get_incoming_old_repos_location c).1)

/-- A working-copy environment in which every operation succeeds. -/
def okWcEnv : WcEnv :=
  ⟨.ok "/wc", .ok (Bool.true, 1, "trunk/foo"), .ok NodeKind.file,
   .ok "/wc", .ok (), .ok (), .ok ()⟩

/-- A tree-conflict descriptor flagged by an update (incoming edit versus
locally edited file). -/
def exampleTreeDesc : WcConflictDescription2 :=
  ⟨ConflictKind.tree, WcOperation.update, ConflictAction.edit,
   ConflictReason.edited, NodeKind.file, none, none, none⟩

/-- A conflict object wrapping only `exampleTreeDesc`. -/
def exampleTreeConflict : SvnClientConflict :=
  ⟨"/wc/foo", none, OptionId.unspecified, OptionId.unspecified, [],
   none, none, none, some exampleTreeDesc⟩


/-- Edit-details lists of length n (revision i by author "a") used to
evaluate the revision-list formatter on concrete inputs. -/
def c4edits (n : Nat) : List ConflictTreeIncomingEditDetails :=
  (List.range n).map (fun i =>
    ⟨(i : Int), "a", Tribool.unknown, Tribool.unknown, Tribool.unknown, ""⟩)

/-- A working-copy environment whose lock release fails. -/
def releaseFailWcEnv : WcEnv :=
  { okWcEnv with release_write_lock := .error (SvnErr.mk1 ErrCode.GENERIC) }

/-- A tree-conflict descriptor for an update that went backwards in
history (old peg revision 2, new peg revision 1). -/
def exampleReverseDesc : WcConflictDescription2 :=
  ⟨ConflictKind.tree, WcOperation.update, ConflictAction.delete,
   ConflictReason.edited, NodeKind.file, none,
   some ⟨"file:///repos", "uuid", "trunk/foo", 2, NodeKind.file⟩,
   some ⟨"file:///repos", "uuid", "trunk/foo", 1, NodeKind.none⟩⟩

/-- A conflict object wrapping `exampleReverseDesc` and no details yet. -/
def exampleReverseConflict : SvnClientConflict :=
  ⟨"/wc/foo", none, OptionId.unspecified, OptionId.unspecified, [],
   none, none, none, some exampleReverseDesc⟩

/-- A repository environment: the node's history is one segment covering
revisions 1-2, added in revision 1 by alice, with nothing at the path
before the addition. -/
def exampleRaEnv : RaEnv :=
  ⟨.ok (), .ok [⟨some "trunk/foo", 1, 2⟩],
   fun _ => .ok "alice", fun _ => .ok NodeKind.none⟩

/-- The details the engine derives for `exampleReverseConflict` in
`exampleRaEnv`. -/
def exampleReverseDetails : ConflictTreeIncomingDeleteDetails :=
  ⟨SVN_INVALID_REVNUM, 1, "trunk/foo", "alice", NodeKind.none, none⟩

/-- The conflict object after detail gathering. -/
def exampleReverseConflictAfter : SvnClientConflict :=
  { exampleReverseConflict with
    tree_conflict_incoming_details := some exampleReverseDetails }

/-- A repository where tracing any deleted path lands on "/foo": the move
scanner's ancestry check accepts a copy whose copyfrom path is "foo". -/
def exampleMoveEnv : MoveScanEnv :=
  ⟨fun _ _ _ => .ok (some "/foo")⟩

/-- One log entry: revision 2 by alice deletes "foo" and copies it (from
revision 1) to "bar". -/
def exampleMoveEntries :
    List (LogEntry × List (String × List CopyInfo) × List String) :=
  [(⟨2, "alice"⟩, [("foo", [⟨"bar", "foo", 1⟩])], ["foo"])]


/-- Well-formedness of a bare arena: chain pointers stay inside it and
are strictly monotone in revision. -/
def MoveArenaWF (arena : List ReposMoveInfo) : Prop :=
  ∀ (i : Nat) (m : ReposMoveInfo), arena[i]? = some m →
    (∀ j, m.next = some j →
      ∃ m2 : ReposMoveInfo, arena[j]? = some m2 ∧ m.rev < m2.rev) ∧
    (∀ j, m.prev = some j →
      ∃ m2 : ReposMoveInfo, arena[j]? = some m2 ∧ m2.rev < m.rev)

/-- The largest revision recorded in an arena (0 when the arena is empty). -/
def arenaMaxRev (arena : List ReposMoveInfo) : Int :=
  arena.foldr (fun m acc => max m.rev acc) 0

/-- The state the scan of `exampleMoveEntries` under `exampleMoveEnv`
produces: one move of "foo" to "bar" committed in revision 2 by alice. -/
def exampleScanResult : MoveScanState :=
  ⟨[⟨"foo", "bar", 2, "alice", 1, none, none⟩], [(2, [0])], [("foo", 0)]⟩

instance : DecidableEq SvnErr := fun a b =>
  decidable_of_iff (a.codes = b.codes) (by
    obtain ⟨ca, ha⟩ := a
    obtain ⟨cb, hb⟩ := b
    constructor
    · intro h; cases h; rfl
    · intro h; cases h; rfl)

instance {ε α : Type} [DecidableEq ε] [DecidableEq α] :
    DecidableEq (Except ε α) := fun a b =>
  match a, b with
  | .ok x, .ok y =>
    if h : x = y then isTrue (by rw [h])
    else isFalse (by intro he; cases he; exact h rfl)
  | .error x, .error y =>
    if h : x = y then isTrue (by rw [h])
    else isFalse (by intro he; cases he; exact h rfl)
  | .ok _, .error _ => isFalse (by intro he; cases he)
  | .error _, .ok _ => isFalse (by intro he; cases he)


theorem describe_incoming_edit_list_modified_revs_eq
    (edits : List ConflictTreeIncomingEditDetails) :
    describe_incoming_edit_list_modified_revs edits =
      edits.enum.flatMap (revItemBody edits.length (revSkip edits.length)) :=
  rfl

theorem revSkip_of_long {n : Nat} (h : 13 ≤ n) : revSkip n = n - 8 := by
  unfold revSkip
  rw [if_neg (by omega), if_neg (by omega)]

theorem revSkip_of_short {n : Nat} (h : n ≤ 12) : revSkip n = 0 := by
  unfold revSkip
  rcases le_or_lt n 8 with h8 | h8
  · rw [if_pos h8]
  · rw [if_neg (by omega), if_pos (by omega)]

theorem revItemBody_first {n skip i : Nat} (d : ConflictTreeIncomingEditDetails)
    (hs : 0 < skip) (hi : i < 4) (hn : 13 ≤ n) :
    revItemBody n skip (i, d) = [RevListItem.rev d.rev d.author true] := by
  unfold revItemBody
  rw [if_pos hs]
  dsimp only
  rw [if_pos hi, decide_eq_true (by omega : i < n - 1)]

theorem revItemBody_mid {n skip i : Nat} (d : ConflictTreeIncomingEditDetails)
    (hs : 0 < skip) (h4 : 4 ≤ i) (hi : i < n - 4) :
    revItemBody n skip (i, d) = [] := by
  unfold revItemBody
  rw [if_pos hs]
  dsimp only
  rw [if_neg (by omega), if_pos ⟨h4, hi⟩]

theorem revItemBody_at (n skip : Nat) (d : ConflictTreeIncomingEditDetails)
    (hs : 0 < skip) (hn : 13 ≤ n) :
    revItemBody n skip (n - 4, d) =
      [RevListItem.omitted skip, RevListItem.rev d.rev d.author true] := by
  unfold revItemBody
  rw [if_pos hs]
  dsimp only
  rw [if_neg (by omega), if_neg (by omega), if_pos rfl,
      decide_eq_true (by omega : n - 4 < n - 1)]
  rfl

theorem revItemBody_tail {n skip i : Nat} (d : ConflictTreeIncomingEditDetails)
    (hs : 0 < skip) (hn : 13 ≤ n) (hi : n - 4 < i) :
    revItemBody n skip (i, d) =
      [RevListItem.rev d.rev d.author (decide (i < n - 1))] := by
  unfold revItemBody
  rw [if_pos hs]
  dsimp only
  rw [if_neg (by omega), if_neg (by omega), if_neg (by omega)]
  rfl

theorem revItemBody_noskip (n : Nat) (p : Nat × ConflictTreeIncomingEditDetails) :
    revItemBody n 0 p =
      [RevListItem.rev p.2.rev p.2.author (decide (p.1 < n - 1))] := by
  unfold revItemBody
  rw [if_neg (by omega)]

theorem flatMap_eq_nil_of_forall {α β : Type} (l : List α) (f : α → List β)
    (h : ∀ a ∈ l, f a = []) : l.flatMap f = [] := by
  induction l with
  | nil => rfl
  | cons x xs ih =>
    rw [List.flatMap_cons, h x (by simp), ih (fun a ha => h a (by simp [ha]))]
    rfl

theorem flatMap_eq_map_of_forall {α β : Type} (l : List α) (f : α → List β)
    (g : α → β) (h : ∀ a ∈ l, f a = [g a]) : l.flatMap f = l.map g := by
  induction l with
  | nil => rfl
  | cons x xs ih =>
    rw [List.flatMap_cons, h x (by simp), ih (fun a ha => h a (by simp [ha])),
        List.map_cons]
    rfl

/-- Long lists (13 or more modifying revisions): the formatter lists the
first four revisions, one placeholder for `length - 8` skipped revisions,
then the last four revisions. -/
theorem describe_incoming_edit_long (edits : List ConflictTreeIncomingEditDetails)
    (h : 13 ≤ edits.length) :
    describe_incoming_edit_list_modified_revs edits =
      (edits.take 4).enum.map
        (fun p => RevListItem.rev p.2.rev p.2.author true)
      ++ RevListItem.omitted (edits.length - 8)
      :: (edits.drop (edits.length - 4)).enum.map
           (fun p => RevListItem.rev p.2.rev p.2.author (decide (p.1 < 3))) := by
  rw [describe_incoming_edit_list_modified_revs_eq, revSkip_of_long h]
  have hpos : 0 < edits.length - 8 := by omega
  have hlen4 : (edits.take 4).length = 4 := by
    rw [List.length_take]; omega
  have hlenl4 : (edits.drop (edits.length - 4)).length = 4 := by
    rw [List.length_drop]; omega
  have hlenmid : (List.take (edits.length - 8) (edits.drop 4)).length
      = edits.length - 8 := by
    rw [List.length_take, List.length_drop]; omega
  have hdd : List.drop (edits.length - 8) (edits.drop 4)
      = edits.drop (edits.length - 4) := by
    rw [List.drop_drop]; congr 1; omega
  have hidx : 4 + (List.take (edits.length - 8) (edits.drop 4)).length
      = edits.length - 4 := by
    rw [hlenmid]; omega
  have hsplit : edits.enum =
      (edits.take 4).enum
      ++ (List.enumFrom 4 (List.take (edits.length - 8) (edits.drop 4))
          ++ List.enumFrom (edits.length - 4)
               (edits.drop (edits.length - 4))) := by
    conv_lhs => rw [show edits = edits.take 4 ++
      (List.take (edits.length - 8) (edits.drop 4) ++
       List.drop (edits.length - 8) (edits.drop 4)) from by
        rw [List.take_append_drop, List.take_append_drop]]
    rw [List.enum_append, List.enumFrom_append, hlen4, hidx, hdd]
  rw [hsplit, List.flatMap_append, List.flatMap_append]
  have hseg1 : (edits.take 4).enum.flatMap
        (revItemBody edits.length (edits.length - 8))
      = (edits.take 4).enum.map
          (fun p => RevListItem.rev p.2.rev p.2.author true) := by
    apply flatMap_eq_map_of_forall
    rintro ⟨i, d⟩ hm
    rw [List.enum] at hm
    obtain ⟨hge, hlt, -⟩ := List.mem_enumFrom hm
    rw [hlen4] at hlt
    exact revItemBody_first d hpos (by omega) h
  have hseg2 : (List.enumFrom 4
        (List.take (edits.length - 8) (edits.drop 4))).flatMap
        (revItemBody edits.length (edits.length - 8)) = [] := by
    apply flatMap_eq_nil_of_forall
    rintro ⟨i, d⟩ hm
    obtain ⟨hge, hlt, -⟩ := List.mem_enumFrom hm
    rw [hlenmid] at hlt
    exact revItemBody_mid d hpos hge (by omega)
  obtain ⟨d0, d1, d2, d3, hl4⟩ : ∃ d0 d1 d2 d3,
      edits.drop (edits.length - 4) = [d0, d1, d2, d3] := by
    match hl : edits.drop (edits.length - 4) with
    | [d0, d1, d2, d3] => exact ⟨d0, d1, d2, d3, rfl⟩
    | [] | [_] | [_, _] | [_, _, _] => simp [hl] at hlenl4
    | _ :: _ :: _ :: _ :: _ :: _ => simp [hl] at hlenl4
  rw [hseg1, hseg2, hl4]
  simp only [List.enumFrom, List.flatMap_cons, List.flatMap_nil,
    List.append_nil, List.enum, List.map_cons, List.map_nil]
  rw [revItemBody_at _ _ d0 hpos h,
      revItemBody_tail d1 hpos h (by omega),
      revItemBody_tail d2 hpos h (by omega),
      revItemBody_tail d3 hpos h (by omega),
      decide_eq_true (by omega : edits.length - 4 + 1 < edits.length - 1),
      decide_eq_true (by omega : edits.length - 4 + 2 < edits.length - 1),
      decide_eq_false (by omega : ¬ (edits.length - 4 + 3 < edits.length - 1))]
  rfl

/-- Short lists (at most 12 modifying revisions): every revision is listed
and no placeholder appears. -/
theorem describe_incoming_edit_short
    (edits : List ConflictTreeIncomingEditDetails) (h : edits.length ≤ 12) :
    describe_incoming_edit_list_modified_revs edits =
      edits.enum.map (fun p =>
        RevListItem.rev p.2.rev p.2.author
          (decide (p.1 < edits.length - 1))) := by
  rw [describe_incoming_edit_list_modified_revs_eq, revSkip_of_short h]
  exact flatMap_eq_map_of_forall _ _ _
    (fun p _ => revItemBody_noskip edits.length p)

theorem tree_resolve_by_id_eq (c : SvnClientConflict) (option_id : OptionId) :
    svn_client_conflict_tree_resolve_by_id c option_id =
      match svn_client_conflict_option_find_by_id
          (svn_client_conflict_tree_get_resolution_options c)
          (tree_resolution_alias c option_id) with
      | some o => .ok o
      | none =>
        .error (SvnErr.mk1 ErrCode.CLIENT_CONFLICT_OPTION_NOT_APPLICABLE) :=
  rfl

/-- C3 counterexample: the binary text-conflict option table is not the
full table minus only the two where-conflicted options; it also omits
base_text. -/
theorem C3_counterexample :
    svn_client_conflict_text_get_resolution_options Bool.true ≠
      text_conflict_options.filter
        (fun id => !(id = OptionId.incoming_text_where_conflicted ∨
                     id = OptionId.working_text_where_conflicted)) ∧
    OptionId.base_text ∈
      text_conflict_options.filter
        (fun id => !(id = OptionId.incoming_text_where_conflicted ∨
                     id = OptionId.working_text_where_conflicted)) ∧
    OptionId.base_text ∉
      svn_client_conflict_text_get_resolution_options Bool.true := by
  decide

/-- C3 (amended): a binary text conflict gets the full option set minus
base_text and the two where-conflicted options, in table order; any other
text conflict gets the full set postpone, base_text, incoming_text,
working_text, incoming_text_where_conflicted,
working_text_where_conflicted, merged_text. -/
theorem C3_text_option_sets :
    svn_client_conflict_text_get_resolution_options Bool.true =
      text_conflict_options.filter
        (fun id => !(id = OptionId.base_text ∨
                     id = OptionId.incoming_text_where_conflicted ∨
                     id = OptionId.working_text_where_conflicted)) ∧
    svn_client_conflict_text_get_resolution_options Bool.false =
      [ OptionId.postpone,
        OptionId.base_text,
        OptionId.incoming_text,
        OptionId.working_text,
        OptionId.incoming_text_where_conflicted,
        OptionId.working_text_where_conflicted,
        OptionId.merged_text ] := by
  decide

/-- C10: when the conflicted-property-names output of get_conflicted is
requested it is always a list, empty when the conflict has no property
conflicts, and each of the three outputs depends only on its own request
flag, so callers may request any subset. -/
theorem C10_get_conflicted_outputs :
    ∀ (want_text want_props want_tree : Bool) (c : SvnClientConflict),
      (want_props = Bool.true →
        ∃ l, (svn_client_conflict_get_conflicted
                want_text want_props want_tree c).2.1 = some l ∧
             (c.prop_conflicts = none → l = [])) ∧
      (svn_client_conflict_get_conflicted want_text want_props want_tree c).1
        = (svn_client_conflict_get_conflicted want_text Bool.true
            Bool.true c).1 ∧
      (svn_client_conflict_get_conflicted want_text want_props want_tree
          c).2.1
        = (svn_client_conflict_get_conflicted Bool.true want_props
            Bool.true c).2.1 ∧
      (svn_client_conflict_get_conflicted want_text want_props want_tree
          c).2.2
        = (svn_client_conflict_get_conflicted Bool.true Bool.true
            want_tree c).2.2 := by
  intro want_text want_props want_tree c
  refine ⟨?_, rfl, rfl, rfl⟩
  intro hw
  subst hw
  unfold svn_client_conflict_get_conflicted
  cases hp : c.prop_conflicts with
  | none => exact ⟨[], rfl, fun _ => rfl⟩
  | some conflicts =>
    exact ⟨conflicts.map Prod.fst, rfl, fun hnone => by
      exact Option.noConfusion hnone⟩

/-- C10 witness: requesting all three outputs on a conflict without
property conflicts yields an empty property-name list. -/
theorem C10_witness :
    ∃ l, (svn_client_conflict_get_conflicted Bool.true Bool.true Bool.true
            exampleTreeConflict).2.1 = some l ∧
         (exampleTreeConflict.prop_conflicts = none → l = []) :=
  (C10_get_conflicted_outputs Bool.true Bool.true Bool.true
    exampleTreeConflict).1 rfl

/-- C6 counterexample: a successfully accepted tree resolution does not
flip get_conflicted on the same conflict object; the object still reports
tree_conflicted = true until the conflict is re-opened. -/
theorem C6_counterexample :
    (resolve_accept_current_wc_state okWcEnv
        OptionId.accept_current_wc_state exampleTreeConflict).result = none ∧
    (svn_client_conflict_get_conflicted Bool.false Bool.false Bool.true
        (resolve_accept_current_wc_state okWcEnv
          OptionId.accept_current_wc_state exampleTreeConflict).conflict).2.2
      = some Bool.true ∧
    (resolve_accept_current_wc_state okWcEnv
        OptionId.accept_current_wc_state
        exampleTreeConflict).conflict.resolution_tree
      = OptionId.accept_current_wc_state :=
  ⟨rfl, rfl, rfl⟩

/-- C6 (amended): get_conflicted reports tree_conflicted = false exactly
when the conflict object carried no tree conflict at open; the tree
resolvers record the chosen resolution but leave the wrapped legacy tree
descriptor (which get_conflicted consults) unchanged. -/
theorem C6_tree_conflicted_reporting :
    ∀ (want_text want_props : Bool) (c : SvnClientConflict),
      ((svn_client_conflict_get_conflicted want_text want_props Bool.true
          c).2.2 = some Bool.false ↔ c.legacy_tree_conflict = none) ∧
      (∀ (env : WcEnv) (option_id : OptionId),
        (resolve_accept_current_wc_state env option_id
            c).conflict.legacy_tree_conflict = c.legacy_tree_conflict ∧
        (resolve_incoming_delete_ignore env option_id
            c).conflict.legacy_tree_conflict = c.legacy_tree_conflict ∧
        (resolve_incoming_delete_accept env option_id
            c).conflict.legacy_tree_conflict = c.legacy_tree_conflict) := by
  intro want_text want_props c
  constructor
  · unfold svn_client_conflict_get_conflicted
    simp only [if_pos rfl]
    cases c.legacy_tree_conflict <;> simp
  · intro env option_id
    refine ⟨?_, ?_, ?_⟩
    · unfold resolve_accept_current_wc_state
      dsimp only
      repeat' split
      all_goals rfl
    · unfold resolve_incoming_delete_ignore
      dsimp only
      repeat' split
      all_goals rfl
    · unfold resolve_incoming_delete_accept
      dsimp only
      repeat' split
      all_goals rfl

/-- C2: an OptionId present in the corresponding get_resolution_options
result is accepted by resolve_by_id and the found option's resolver is
invoked; any id not present fails with
CLIENT_CONFLICT_OPTION_NOT_APPLICABLE; for tree conflicts the id is first
rewritten by the two backwards-compatibility aliases
(working_text_where_conflicted to update_move_destination for update and
switch with a moved-away local change, or to
update_any_moved_away_children for a deleted or replaced local change with
an incoming edit on a directory victim; merged_text to
accept_current_wc_state). -/
theorem C2_resolve_by_id :
    (∀ (mime_type_is_binary : Bool) (option_id : OptionId),
      (option_id ∈ svn_client_conflict_text_get_resolution_options
          mime_type_is_binary →
        svn_client_conflict_text_resolve_by_id mime_type_is_binary option_id
          = .ok option_id) ∧
      (option_id ∉ svn_client_conflict_text_get_resolution_options
          mime_type_is_binary →
        ∃ e, svn_client_conflict_text_resolve_by_id mime_type_is_binary
            option_id = .error e ∧
          e.head = ErrCode.CLIENT_CONFLICT_OPTION_NOT_APPLICABLE)) ∧
    (∀ option_id : OptionId,
      (option_id ∈ svn_client_conflict_prop_get_resolution_options →
        svn_client_conflict_prop_resolve_by_id option_id = .ok option_id) ∧
      (option_id ∉ svn_client_conflict_prop_get_resolution_options →
        ∃ e, svn_client_conflict_prop_resolve_by_id option_id = .error e ∧
          e.head = ErrCode.CLIENT_CONFLICT_OPTION_NOT_APPLICABLE)) ∧
    (∀ (c : SvnClientConflict) (option_id : OptionId),
      ((∃ o ∈ svn_client_conflict_tree_get_resolution_options c,
          o.id = tree_resolution_alias c option_id) →
        ∃ o, svn_client_conflict_tree_resolve_by_id c option_id = .ok o ∧
          o.id = tree_resolution_alias c option_id ∧
          o ∈ svn_client_conflict_tree_get_resolution_options c) ∧
      ((∀ o ∈ svn_client_conflict_tree_get_resolution_options c,
          o.id ≠ tree_resolution_alias c option_id) →
        ∃ e, svn_client_conflict_tree_resolve_by_id c option_id = .error e ∧
          e.head = ErrCode.CLIENT_CONFLICT_OPTION_NOT_APPLICABLE)) ∧
    (∀ c : SvnClientConflict,
      ((svn_client_conflict_get_operation c = WcOperation.update ∨
        svn_client_conflict_get_operation c = WcOperation.switch) →
        (svn_client_conflict_get_local_change c =
            ConflictReason.moved_away →
          tree_resolution_alias c OptionId.working_text_where_conflicted
            = OptionId.update_move_destination) ∧
        ((svn_client_conflict_get_local_change c = ConflictReason.deleted ∨
          svn_client_conflict_get_local_change c =
            ConflictReason.replaced) →
          svn_client_conflict_get_incoming_change c = ConflictAction.edit →
          svn_client_conflict_tree_get_victim_node_kind c = NodeKind.dir →
          tree_resolution_alias c OptionId.working_text_where_conflicted
            = OptionId.update_any_moved_away_children)) ∧
      tree_resolution_alias c OptionId.merged_text
        = OptionId.accept_current_wc_state) := by
  refine ⟨?_, ?_, ?_, ?_⟩
  · intro mime_type_is_binary option_id
    constructor
    · intro hmem
      unfold svn_client_conflict_text_resolve_by_id
      cases hf : (svn_client_conflict_text_get_resolution_options
          mime_type_is_binary).find? (fun o => o = option_id) with
      | none =>
        rw [List.find?_eq_none] at hf
        exact absurd (by simp : decide (option_id = option_id) = true)
          (by simpa using hf option_id hmem)
      | some o =>
        have := List.find?_some hf
        simp only [decide_eq_true_eq] at this
        simp only [hf, this]
    · intro hmem
      unfold svn_client_conflict_text_resolve_by_id
      cases hf : (svn_client_conflict_text_get_resolution_options
          mime_type_is_binary).find? (fun o => o = option_id) with
      | none =>
        exact ⟨SvnErr.mk1 ErrCode.CLIENT_CONFLICT_OPTION_NOT_APPLICABLE,
          by simp only [hf], rfl⟩
      | some o =>
        have hp := List.find?_some hf
        have hm := List.mem_of_find?_eq_some hf
        simp only [decide_eq_true_eq] at hp
        subst hp
        exact absurd hm hmem
  · intro option_id
    constructor
    · intro hmem
      unfold svn_client_conflict_prop_resolve_by_id
      cases hf : svn_client_conflict_prop_get_resolution_options.find?
          (fun o => o = option_id) with
      | none =>
        rw [List.find?_eq_none] at hf
        exact absurd (by simp : decide (option_id = option_id) = true)
          (by simpa using hf option_id hmem)
      | some o =>
        have := List.find?_some hf
        simp only [decide_eq_true_eq] at this
        simp only [hf, this]
    · intro hmem
      unfold svn_client_conflict_prop_resolve_by_id
      cases hf : svn_client_conflict_prop_get_resolution_options.find?
          (fun o => o = option_id) with
      | none =>
        exact ⟨SvnErr.mk1 ErrCode.CLIENT_CONFLICT_OPTION_NOT_APPLICABLE,
          by simp only [hf], rfl⟩
      | some o =>
        have hp := List.find?_some hf
        have hm := List.mem_of_find?_eq_some hf
        simp only [decide_eq_true_eq] at hp
        subst hp
        exact absurd hm hmem
  · intro c option_id
    constructor
    · rintro ⟨o, hmem, hid⟩
      rw [tree_resolve_by_id_eq]
      unfold svn_client_conflict_option_find_by_id
      cases hf : (svn_client_conflict_tree_get_resolution_options c).find?
          (fun o => o.id = tree_resolution_alias c option_id) with
      | none =>
        rw [List.find?_eq_none] at hf
        exact absurd (by simp [hid] : decide
            (o.id = tree_resolution_alias c option_id) = true)
          (by simpa using hf o hmem)
      | some o2 =>
        have hp := List.find?_some hf
        have hm := List.mem_of_find?_eq_some hf
        simp only [decide_eq_true_eq] at hp
        exact ⟨o2, rfl, hp, hm⟩
    · intro hall
      rw [tree_resolve_by_id_eq]
      unfold svn_client_conflict_option_find_by_id
      cases hf : (svn_client_conflict_tree_get_resolution_options c).find?
          (fun o => o.id = tree_resolution_alias c option_id) with
      | none =>
        refine ⟨_, rfl, rfl⟩
      | some o2 =>
        have hp := List.find?_some hf
        have hm := List.mem_of_find?_eq_some hf
        simp only [decide_eq_true_eq] at hp
        exact absurd hp (hall o2 hm)
  · intro c
    refine ⟨?_, rfl⟩
    intro hop
    constructor
    · intro hreason
      unfold tree_resolution_alias
      rw [if_pos rfl, if_pos hop, if_pos hreason]
    · intro hreason haction hkind
      unfold tree_resolution_alias
      rw [if_pos rfl, if_pos hop]
      rw [if_neg (by rcases hreason with h | h <;> simp [h]),
          if_pos hreason, if_pos ⟨haction, hkind⟩]

/-- C2 witness: resolving a plain text conflict by the base_text id, which
the option list contains, succeeds. -/
theorem C2_witness :
    OptionId.base_text ∈
      svn_client_conflict_text_get_resolution_options Bool.false ∧
    svn_client_conflict_text_resolve_by_id Bool.false OptionId.base_text
      = .ok OptionId.base_text :=
  ⟨by decide,
   (C2_resolve_by_id.1 Bool.false OptionId.base_text).1 (by decide)⟩

theorem svn_error_compose_create_eq_none (a b : Option SvnErr) :
    svn_error_compose_create a b = none ↔ a = none ∧ b = none := by
  cases a <;> cases b <;> simp [svn_error_compose_create]

theorem svn_error_compose_create_head (e1 : SvnErr) (b : Option SvnErr) :
    ∃ e, svn_error_compose_create (some e1) b = some e ∧
      e.head = e1.head := by
  cases b with
  | none => exact ⟨e1, rfl, rfl⟩
  | some e2 =>
    refine ⟨_, rfl, ?_⟩
    obtain ⟨codes, hne⟩ := e1
    cases codes with
    | nil => exact absurd rfl hne
    | cons hd tl => rfl

theorem svn_error_compose_create_suffix (a : Option SvnErr) (r : SvnErr) :
    ∃ e pre, svn_error_compose_create a (some r) = some e ∧
      e.codes = pre ++ r.codes := by
  cases a with
  | none => exact ⟨r, [], rfl, rfl⟩
  | some e1 => exact ⟨_, e1.codes, rfl, rfl⟩

theorem verify_local_state_ok_implies (env : WcEnv) (c : SvnClientConflict)
    (w : String) (origin : Bool × Int × String)
    (hw : env.wcroot = .ok w) (ho : env.node_origin = .ok origin)
    (hop : svn_client_conflict_get_operation c = WcOperation.update ∨
           svn_client_conflict_get_operation c = WcOperation.switch) :
    verify_local_state_for_incoming_delete env c = .ok () →
      verify_preconds c origin := by
  obtain ⟨is_copy, copyfrom_rev, copyfrom_repos_relpath⟩ := origin
  unfold verify_local_state_for_incoming_delete
  rw [hw]
  dsimp only
  rw [if_pos hop]
  cases hd : c.tree_conflict_incoming_details with
  | none => intro h; cases h
  | some details =>
    rw [ho]
    dsimp only
    simp only [verify_preconds]
    split_ifs with h1 h2 h3 h4 h5 h6 h7 <;> intro h <;> try cases h
    · refine ⟨h1, details, hd, ?_, ?_, ?_, ?_, ?_⟩
      · tauto
      · intro hdel; exact lt_of_not_ge fun hge => h3 ⟨hdel, hge⟩
      · intro hadd; exact le_of_not_lt fun hlt => h4 ⟨hadd, hlt⟩
      · intro hup; by_contra hne; exact h5 ⟨hup, hne⟩
      · intro _; exact not_not.mp h7
    · refine ⟨h1, details, hd, ?_, ?_, ?_, ?_, ?_⟩
      · tauto
      · intro hdel; exact lt_of_not_ge fun hge => h3 ⟨hdel, hge⟩
      · intro hadd; exact le_of_not_lt fun hlt => h4 ⟨hadd, hlt⟩
      · intro hup; by_contra hne; exact h5 ⟨hup, hne⟩
      · intro hsw; exact absurd hsw h6

theorem verify_local_state_error_head (env : WcEnv) (c : SvnClientConflict)
    (w : String) (origin : Bool × Int × String)
    (hw : env.wcroot = .ok w) (ho : env.node_origin = .ok origin)
    (hop : svn_client_conflict_get_operation c = WcOperation.update ∨
           svn_client_conflict_get_operation c = WcOperation.switch) :
    ∀ e, verify_local_state_for_incoming_delete env c = .error e →
      e.head = ErrCode.WC_CONFLICT_RESOLVER_FAILURE := by
  intro e
  unfold verify_local_state_for_incoming_delete
  rw [hw]
  dsimp only
  rw [if_pos hop]
  cases hd : c.tree_conflict_incoming_details with
  | none => intro h; cases h; rfl
  | some details =>
    rw [ho]
    dsimp only
    split_ifs <;> intro h <;> cases h <;> rfl

theorem verify_local_state_fails (env : WcEnv) (c : SvnClientConflict)
    (w : String) (origin : Bool × Int × String)
    (hw : env.wcroot = .ok w) (ho : env.node_origin = .ok origin)
    (hop : svn_client_conflict_get_operation c = WcOperation.update ∨
           svn_client_conflict_get_operation c = WcOperation.switch)
    (hpre : ¬ verify_preconds c origin) :
    ∃ e, verify_local_state_for_incoming_delete env c = .error e ∧
      e.head = ErrCode.WC_CONFLICT_RESOLVER_FAILURE := by
  cases hv : verify_local_state_for_incoming_delete env c with
  | ok v =>
    cases v
    exact absurd (verify_local_state_ok_implies env c w origin hw ho hop hv)
      hpre
  | error e =>
    exact ⟨e, rfl, verify_local_state_error_head env c w origin hw ho hop e hv⟩

/-- C1: for a tree conflict flagged by update or switch, the
incoming_delete_ignore and incoming_delete_accept resolvers succeed only
when the working copy node is a copy, the incoming-delete details are
present, one of deleted_rev/added_rev is known, copyfrom_rev lies on the
correct side of it, and the copyfrom path matches the details path
(update) or the incoming old repos path (switch); when any precondition
fails both resolvers return WC_CONFLICT_RESOLVER_FAILURE and do not clear
the tree conflict. -/
theorem C1_incoming_delete_preconditions :
    ∀ (env : WcEnv) (c : SvnClientConflict) (option_id : OptionId)
      (w lock : String) (origin : Bool × Int × String),
      env.wcroot = .ok w →
      env.node_origin = .ok origin →
      env.acquire_write_lock = .ok lock →
      (svn_client_conflict_get_operation c = WcOperation.update ∨
       svn_client_conflict_get_operation c = WcOperation.switch) →
      (((resolve_incoming_delete_ignore env option_id c).result = none →
          verify_preconds c origin) ∧
       ((resolve_incoming_delete_accept env option_id c).result = none →
          verify_preconds c origin) ∧
       (¬ verify_preconds c origin →
         (∃ e, (resolve_incoming_delete_ignore env option_id c).result
             = some e ∧ e.head = ErrCode.WC_CONFLICT_RESOLVER_FAILURE) ∧
         (resolve_incoming_delete_ignore env option_id
             c).tree_conflict_cleared = Bool.false ∧
         (∃ e, (resolve_incoming_delete_accept env option_id c).result
             = some e ∧ e.head = ErrCode.WC_CONFLICT_RESOLVER_FAILURE) ∧
         (resolve_incoming_delete_accept env option_id c).node_deleted
             = Bool.false)) := by
  intro env c option_id w lock origin hw ho hacq hop
  unfold resolve_incoming_delete_ignore resolve_incoming_delete_accept
  rw [hacq]
  dsimp only
  refine ⟨?_, ?_, ?_⟩
  · cases hv : verify_local_state_for_incoming_delete env c with
    | error e =>
      cases hr : exceptErr env.release_write_lock <;>
        simp [svn_error_compose_create, hr]
    | ok v =>
      cases v
      intro _
      exact verify_local_state_ok_implies env c w origin hw ho hop hv
  · cases hv : verify_local_state_for_incoming_delete env c with
    | error e =>
      cases hr : exceptErr env.release_write_lock <;>
        simp [svn_error_compose_create, hr]
    | ok v =>
      cases v
      intro _
      exact verify_local_state_ok_implies env c w origin hw ho hop hv
  · intro hpre
    obtain ⟨e, hv, hhead⟩ :=
      verify_local_state_fails env c w origin hw ho hop hpre
    rw [hv]
    dsimp only
    obtain ⟨e2, hc2, hh2⟩ :=
      svn_error_compose_create_head e (exceptErr env.release_write_lock)
    rw [hc2]
    exact ⟨⟨e2, rfl, hh2.trans hhead⟩, rfl, ⟨e2, rfl, hh2.trans hhead⟩, rfl⟩

/-- C1 witness: on an update tree conflict whose incoming-delete details
were never fetched the preconditions fail, and both resolvers return
WC_CONFLICT_RESOLVER_FAILURE without clearing the conflict. -/
theorem C1_witness :
    ¬ verify_preconds exampleTreeConflict (Bool.true, 1, "trunk/foo") ∧
    ((∃ e, (resolve_incoming_delete_ignore okWcEnv
        OptionId.incoming_delete_ignore exampleTreeConflict).result = some e ∧
        e.head = ErrCode.WC_CONFLICT_RESOLVER_FAILURE) ∧
     (resolve_incoming_delete_ignore okWcEnv OptionId.incoming_delete_ignore
        exampleTreeConflict).tree_conflict_cleared = Bool.false ∧
     (∃ e, (resolve_incoming_delete_accept okWcEnv
        OptionId.incoming_delete_ignore exampleTreeConflict).result = some e ∧
        e.head = ErrCode.WC_CONFLICT_RESOLVER_FAILURE) ∧
     (resolve_incoming_delete_accept okWcEnv OptionId.incoming_delete_ignore
        exampleTreeConflict).node_deleted = Bool.false) := by
  have hpre : ¬ verify_preconds exampleTreeConflict
      (Bool.true, 1, "trunk/foo") := by
    rintro ⟨-, d, hd, -⟩
    rw [show exampleTreeConflict.tree_conflict_incoming_details = none
        from rfl] at hd
    exact Option.noConfusion hd
  exact ⟨hpre, (C1_incoming_delete_preconditions okWcEnv exampleTreeConflict
    OptionId.incoming_delete_ignore "/wc" "/wc" (Bool.true, 1, "trunk/foo")
    rfl rfl rfl (Or.inl rfl)).2.2 hpre⟩

/-- C9: each embedded tree-conflict resolver records its option id as the
tree resolution only when the working-copy mutation and the lock release
both succeeded; on any failure the recorded resolution is unchanged, and a
lock-release failure after a successful acquire is composed into the
returned error. -/
theorem C9_resolution_recorded_after_success :
    ∀ (env : WcEnv) (option_id : OptionId) (c : SvnClientConflict),
      (((resolve_incoming_delete_ignore env option_id c).result = none →
          (resolve_incoming_delete_ignore env option_id
            c).conflict.resolution_tree = option_id ∧
          (resolve_incoming_delete_ignore env option_id
            c).tree_conflict_cleared = Bool.true ∧
          env.release_write_lock = .ok ()) ∧
        ((resolve_incoming_delete_ignore env option_id c).result ≠ none →
          (resolve_incoming_delete_ignore env option_id
            c).conflict.resolution_tree = c.resolution_tree) ∧
        (∀ lock r, env.acquire_write_lock = .ok lock →
          env.release_write_lock = .error r →
          ∃ e pre, (resolve_incoming_delete_ignore env option_id c).result
              = some e ∧ e.codes = pre ++ r.codes)) ∧
      (((resolve_incoming_delete_accept env option_id c).result = none →
          (resolve_incoming_delete_accept env option_id
            c).conflict.resolution_tree = option_id ∧
          (resolve_incoming_delete_accept env option_id c).node_deleted
            = Bool.true ∧
          env.release_write_lock = .ok ()) ∧
        ((resolve_incoming_delete_accept env option_id c).result ≠ none →
          (resolve_incoming_delete_accept env option_id
            c).conflict.resolution_tree = c.resolution_tree) ∧
        (∀ lock r, env.acquire_write_lock = .ok lock →
          env.release_write_lock = .error r →
          ∃ e pre, (resolve_incoming_delete_accept env option_id c).result
              = some e ∧ e.codes = pre ++ r.codes)) ∧
      (((resolve_accept_current_wc_state env option_id c).result = none →
          (resolve_accept_current_wc_state env option_id
            c).conflict.resolution_tree = option_id ∧
          (resolve_accept_current_wc_state env option_id
            c).tree_conflict_cleared = Bool.true ∧
          env.release_write_lock = .ok ()) ∧
        ((resolve_accept_current_wc_state env option_id c).result ≠ none →
          (resolve_accept_current_wc_state env option_id
            c).conflict.resolution_tree = c.resolution_tree) ∧
        (∀ lock r, option_id = OptionId.accept_current_wc_state →
          env.acquire_write_lock = .ok lock →
          env.release_write_lock = .error r →
          ∃ e pre, (resolve_accept_current_wc_state env option_id c).result
              = some e ∧ e.codes = pre ++ r.codes)) := by
  intro env option_id c
  refine ⟨⟨?_, ?_, ?_⟩, ⟨?_, ?_, ?_⟩, ⟨?_, ?_, ?_⟩⟩
  · unfold resolve_incoming_delete_ignore
    cases env.acquire_write_lock with
    | error e => intro h; cases h
    | ok lock =>
      dsimp only
      cases hv : verify_local_state_for_incoming_delete env c with
      | error e =>
        cases hr : env.release_write_lock <;>
          simp [svn_error_compose_create, exceptErr, hr]
      | ok v =>
        cases v
        cases hdel : env.del_tree_conflict with
        | error e =>
          cases hr : env.release_write_lock <;>
            simp [svn_error_compose_create, exceptErr, hr]
        | ok u =>
          cases u
          cases hr : env.release_write_lock with
          | error r => simp [svn_error_compose_create, exceptErr, hr]
          | ok u2 =>
            cases u2
            simp [svn_error_compose_create, exceptErr, hr]
  · unfold resolve_incoming_delete_ignore
    cases env.acquire_write_lock with
    | error e => intro _; rfl
    | ok lock =>
      dsimp only
      cases hv : verify_local_state_for_incoming_delete env c <;>
        dsimp only <;>
        [skip; cases hdel : env.del_tree_conflict] <;>
        cases hr : env.release_write_lock <;>
          simp [svn_error_compose_create, exceptErr]
  · intro lock r hacq hr
    unfold resolve_incoming_delete_ignore
    rw [hacq]
    dsimp only
    obtain ⟨e, pre, hc, hcodes⟩ := svn_error_compose_create_suffix
      (match verify_local_state_for_incoming_delete env c with
       | .error e => (some e, Bool.false)
       | .ok () =>
         match env.del_tree_conflict with
         | .error e => (some e, Bool.false)
         | .ok () => (none, Bool.true)).1 r
    rw [show exceptErr env.release_write_lock = some r by
          rw [hr]; rfl]
    rw [hc]
    exact ⟨e, pre, rfl, hcodes⟩
  · unfold resolve_incoming_delete_accept
    cases env.acquire_write_lock with
    | error e => intro h; cases h
    | ok lock =>
      dsimp only
      cases hv : verify_local_state_for_incoming_delete env c with
      | error e =>
        cases hr : env.release_write_lock <;>
          simp [svn_error_compose_create, exceptErr, hr]
      | ok v =>
        cases v
        cases hdel : env.delete4 with
        | error e =>
          cases hr : env.release_write_lock <;>
            simp [svn_error_compose_create, exceptErr, hr]
        | ok u =>
          cases u
          cases hr : env.release_write_lock with
          | error r => simp [svn_error_compose_create, exceptErr, hr]
          | ok u2 =>
            cases u2
            simp [svn_error_compose_create, exceptErr, hr]
  · unfold resolve_incoming_delete_accept
    cases env.acquire_write_lock with
    | error e => intro _; rfl
    | ok lock =>
      dsimp only
      cases hv : verify_local_state_for_incoming_delete env c <;>
        dsimp only <;>
        [skip; cases hdel : env.delete4] <;>
        cases hr : env.release_write_lock <;>
          simp [svn_error_compose_create, exceptErr]
  · intro lock r hacq hr
    unfold resolve_incoming_delete_accept
    rw [hacq]
    dsimp only
    obtain ⟨e, pre, hc, hcodes⟩ := svn_error_compose_create_suffix
      (match verify_local_state_for_incoming_delete env c with
       | .error e => (some e, Bool.false)
       | .ok () =>
         match env.delete4 with
         | .error e => (some e, Bool.false)
         | .ok () => (none, Bool.true)).1 r
    rw [show exceptErr env.release_write_lock = some r by
          rw [hr]; rfl]
    rw [hc]
    exact ⟨e, pre, rfl, hcodes⟩
  · unfold resolve_accept_current_wc_state
    split
    · intro h; cases h
    · cases env.acquire_write_lock with
      | error e => intro h; cases h
      | ok lock =>
        dsimp only
        cases hdel : env.del_tree_conflict with
        | error e =>
          cases hr : env.release_write_lock <;>
            simp [svn_error_compose_create, exceptErr, hr]
        | ok u =>
          cases u
          cases hr : env.release_write_lock with
          | error r => simp [svn_error_compose_create, exceptErr, hr]
          | ok u2 =>
            cases u2
            simp [svn_error_compose_create, exceptErr, hr]
  · unfold resolve_accept_current_wc_state
    split
    · intro _; rfl
    · cases env.acquire_write_lock with
      | error e => intro _; rfl
      | ok lock =>
        dsimp only
        cases hdel : env.del_tree_conflict <;>
          cases hr : env.release_write_lock <;>
            simp [svn_error_compose_create, exceptErr]
  · intro lock r hid hacq hr
    unfold resolve_accept_current_wc_state
    rw [if_neg (by simp [hid])]
    rw [hacq]
    dsimp only
    obtain ⟨e, pre, hc, hcodes⟩ := svn_error_compose_create_suffix
      (match env.del_tree_conflict with
       | .error e => (some e, Bool.false)
       | .ok () => (none, Bool.true)).1 r
    rw [show exceptErr env.release_write_lock = some r by
          rw [hr]; rfl]
    rw [hc]
    exact ⟨e, pre, rfl, hcodes⟩

/-- C9 witness: with a failing lock release, the ignore resolver returns
an error into which the release error is composed. -/
theorem C9_witness :
    ∃ e pre, (resolve_incoming_delete_ignore releaseFailWcEnv
        OptionId.incoming_delete_ignore exampleTreeConflict).result = some e ∧
      e.codes = pre ++ (SvnErr.mk1 ErrCode.GENERIC).codes :=
  (C9_resolution_recorded_after_success releaseFailWcEnv
    OptionId.incoming_delete_ignore exampleTreeConflict).1.2.2
    "/wc" (SvnErr.mk1 ErrCode.GENERIC) rfl rfl

/-- C4 (amended): the revision-list formatter emits the placeholder, with
count length - 8, between the first four and last four revisions for
every list of at least 13 revisions, and lists every revision without a
placeholder for lists of at most 12 revisions. -/
theorem C4_incoming_edit_revision_list :
    ∀ edits : List ConflictTreeIncomingEditDetails,
      (13 ≤ edits.length →
        describe_incoming_edit_list_modified_revs edits =
          (edits.take 4).enum.map
            (fun p => RevListItem.rev p.2.rev p.2.author Bool.true)
          ++ RevListItem.omitted (edits.length - 8)
          :: (edits.drop (edits.length - 4)).enum.map
               (fun p => RevListItem.rev p.2.rev p.2.author
                 (decide (p.1 < 3)))) ∧
      (edits.length ≤ 12 →
        describe_incoming_edit_list_modified_revs edits =
          edits.enum.map (fun p =>
            RevListItem.rev p.2.rev p.2.author
              (decide (p.1 < edits.length - 1)))) :=
  fun edits =>
    ⟨describe_incoming_edit_long edits, describe_incoming_edit_short edits⟩

/-- C4 counterexample: a list of exactly 13 revisions, which the claim
says is rendered in full without a placeholder, gets the placeholder for
5 omitted revisions and only 8 explicit revisions. -/
theorem C4_counterexample :
    (c4edits 13).length ≤ 13 ∧
    RevListItem.omitted 5 ∈
      describe_incoming_edit_list_modified_revs (c4edits 13) ∧
    (describe_incoming_edit_list_modified_revs (c4edits 13)).length = 9 := by
  decide

/-- C4 witness: the amended statement evaluated on concrete lists of 14
and of 3 revisions. -/
theorem C4_witness :
    (13 ≤ (c4edits 14).length ∧
      describe_incoming_edit_list_modified_revs (c4edits 14) =
        ((c4edits 14).take 4).enum.map
          (fun p => RevListItem.rev p.2.rev p.2.author Bool.true)
        ++ RevListItem.omitted ((c4edits 14).length - 8)
        :: ((c4edits 14).drop ((c4edits 14).length - 4)).enum.map
             (fun p => RevListItem.rev p.2.rev p.2.author
               (decide (p.1 < 3)))) ∧
    ((c4edits 3).length ≤ 12 ∧
      describe_incoming_edit_list_modified_revs (c4edits 3) =
        (c4edits 3).enum.map (fun p =>
          RevListItem.rev p.2.rev p.2.author
            (decide (p.1 < (c4edits 3).length - 1)))) :=
  ⟨⟨by decide, (C4_incoming_edit_revision_list (c4edits 14)).1 (by decide)⟩,
   ⟨by decide, (C4_incoming_edit_revision_list (c4edits 3)).2 (by decide)⟩⟩

theorem reverse_addition_details_shape (env : RaEnv)
    (old_repos_relpath : String) (old_rev new_rev : Int)
    (d : ConflictTreeIncomingDeleteDetails) :
    get_incoming_delete_details_for_reverse_addition env old_repos_relpath
        old_rev new_rev = .ok d →
    d.deleted_rev = SVN_INVALID_REVNUM ∧ 0 ≤ d.added_rev := by
  intro h
  unfold get_incoming_delete_details_for_reverse_addition at h
  cases hos : env.open_ra_session with
  | error e => rw [hos] at h; cases h
  | ok u =>
    cases u
    rw [hos] at h
    dsimp only at h
    cases hseg : env.location_segments with
    | error e => rw [hseg] at h; cases h
    | ok segments =>
      rw [hseg] at h
      dsimp only at h
      cases hrp : svn_ra_rev_prop env
          (List.foldl find_added_rev
            ⟨SVN_INVALID_REVNUM, none, none⟩ segments).added_rev with
      | error e => rw [hrp] at h; cases h
      | ok author =>
        have hvalid : 0 ≤ (List.foldl find_added_rev
            ⟨SVN_INVALID_REVNUM, none, none⟩ segments).added_rev := by
          by_contra hneg
          unfold svn_ra_rev_prop at hrp
          rw [if_pos (by omega)] at hrp
          cases hrp
        rw [hrp] at h
        dsimp only at h
        repeat' (first | split at h | (dsimp only at h))
        all_goals cases h
        all_goals exact ⟨rfl, by dsimp only; omega⟩

/-- C8: every incoming-delete details record the detail pass constructs
has exactly one of deleted_rev/added_rev valid with the other equal to the
invalid sentinel, and added_rev is the valid one exactly when the
operation applied an addition in reverse (went backwards in history). -/
theorem C8_details_exactly_one_valid :
    ∀ (env : RaEnv)
      (find_deletion : Except SvnErr (Int × String × NodeKind × Option Nat))
      (c c' : SvnClientConflict),
      conflict_tree_get_details_incoming_delete env find_deletion c
        = .ok c' →
      c.tree_conflict_incoming_details = none →
      ∀ d, c'.tree_conflict_incoming_details = some d →
        ((d.deleted_rev ≠ SVN_INVALID_REVNUM ∧
          d.added_rev = SVN_INVALID_REVNUM) ∨
         (d.deleted_rev = SVN_INVALID_REVNUM ∧
          d.added_rev ≠ SVN_INVALID_REVNUM)) ∧
        (d.added_rev ≠ SVN_INVALID_REVNUM ↔
          ¬ ((svn_client_conflict_get_incoming_old_repos_location c).2.1 <
             (svn_client_conflict_get_incoming_new_repos_location c).2.1)) := by
  intro env find_deletion c c' h hnone d hd
  unfold conflict_tree_get_details_incoming_delete at h
  dsimp only at h
  by_cases hup : svn_client_conflict_get_operation c = WcOperation.update
  · rw [if_pos hup] at h
    by_cases hfwd :
        (svn_client_conflict_get_incoming_old_repos_location c).2.1 <
        (svn_client_conflict_get_incoming_new_repos_location c).2.1
    · rw [if_pos hfwd] at h
      cases hfd : find_deletion with
      | error e => rw [hfd] at h; cases h
      | ok tup =>
        rw [hfd] at h
        obtain ⟨deleted_rev, author, repl, move⟩ := tup
        dsimp only at h
        by_cases hinv : deleted_rev = SVN_INVALID_REVNUM
        · rw [if_pos hinv] at h
          cases h
          rw [hnone] at hd
          cases hd
        · rw [if_neg hinv] at h
          try dsimp only at h
          cases h
          dsimp only at hd
          cases hd
          refine ⟨Or.inl ⟨hinv, rfl⟩, ?_, ?_⟩
          · intro hadded; exact absurd rfl hadded
          · intro hr; exact absurd hfwd hr
    · rw [if_neg hfwd] at h
      cases hrev : get_incoming_delete_details_for_reverse_addition env
          ((svn_client_conflict_get_incoming_old_repos_location c).1.getD "")
          (svn_client_conflict_get_incoming_old_repos_location c).2.1
          (svn_client_conflict_get_incoming_new_repos_location c).2.1 with
      | error e => rw [hrev] at h; cases h
      | ok details =>
        rw [hrev] at h
        dsimp only at h
        cases h
        dsimp only at hd
        cases hd
        obtain ⟨hdel, hadd⟩ :=
          reverse_addition_details_shape env _ _ _ d hrev
        have hne : d.added_rev ≠ SVN_INVALID_REVNUM := by
          intro heq
          rw [heq] at hadd
          exact absurd hadd (by decide)
        exact ⟨Or.inr ⟨hdel, hne⟩, fun _ => hfwd, fun _ => hne⟩
  · rw [if_neg hup] at h
    by_cases hsm : svn_client_conflict_get_operation c = WcOperation.switch ∨
        svn_client_conflict_get_operation c = WcOperation.merge
    · rw [if_pos hsm] at h
      by_cases hfwd :
          (svn_client_conflict_get_incoming_old_repos_location c).2.1 <
          (svn_client_conflict_get_incoming_new_repos_location c).2.1
      · rw [if_pos hfwd] at h
        cases hfd : find_deletion with
        | error e => rw [hfd] at h; cases h
        | ok tup =>
          rw [hfd] at h
          obtain ⟨deleted_rev, author, repl, move⟩ := tup
          dsimp only at h
          by_cases hinv : deleted_rev = SVN_INVALID_REVNUM
          · rw [if_pos hinv] at h
            cases h
            rw [hnone] at hd
            cases hd
          · rw [if_neg hinv] at h
            try dsimp only at h
            cases h
            dsimp only at hd
            cases hd
            refine ⟨Or.inl ⟨hinv, rfl⟩, ?_, ?_⟩
            · intro hadded; exact absurd rfl hadded
            · intro hr; exact absurd hfwd hr
      · rw [if_neg hfwd] at h
        cases hrev : get_incoming_delete_details_for_reverse_addition env
            ((svn_client_conflict_get_incoming_old_repos_location
              c).1.getD "")
            (svn_client_conflict_get_incoming_old_repos_location c).2.1
            (svn_client_conflict_get_incoming_new_repos_location c).2.1 with
        | error e => rw [hrev] at h; cases h
        | ok details =>
          rw [hrev] at h
          dsimp only at h
          cases h
          dsimp only at hd
          cases hd
          obtain ⟨hdel, hadd⟩ :=
            reverse_addition_details_shape env _ _ _ d hrev
          have hne : d.added_rev ≠ SVN_INVALID_REVNUM := by
            intro heq
            rw [heq] at hadd
            exact absurd hadd (by decide)
          exact ⟨Or.inr ⟨hdel, hne⟩, fun _ => hfwd, fun _ => hne⟩
    · rw [if_neg hsm] at h
      cases h
      dsimp only at hd
      cases hd

/-- C8 witness: a backwards update over a node added in revision 1 yields
details with added_rev = 1 valid and deleted_rev invalid. -/
theorem C8_witness :
    ((exampleReverseDetails.deleted_rev ≠ SVN_INVALID_REVNUM ∧
      exampleReverseDetails.added_rev = SVN_INVALID_REVNUM) ∨
     (exampleReverseDetails.deleted_rev = SVN_INVALID_REVNUM ∧
      exampleReverseDetails.added_rev ≠ SVN_INVALID_REVNUM)) ∧
    (exampleReverseDetails.added_rev ≠ SVN_INVALID_REVNUM ↔
      ¬ ((svn_client_conflict_get_incoming_old_repos_location
            exampleReverseConflict).2.1 <
         (svn_client_conflict_get_incoming_new_repos_location
            exampleReverseConflict).2.1)) :=
  C8_details_exactly_one_valid exampleRaEnv
    (.ok (-1, "", NodeKind.none, none)) exampleReverseConflict
    exampleReverseConflictAfter rfl rfl exampleReverseDetails rfl


theorem lookup_cons_self {α β : Type} [BEq α] [LawfulBEq α]
    (k : α) (v : β) (rest : List (α × β)) :
    List.lookup k ((k, v) :: rest) = some v := by
  conv_lhs => unfold List.lookup
  rw [show (k == k) = Bool.true by simp]

theorem lookup_cons_ne {α β : Type} [BEq α] [LawfulBEq α]
    {k k2 : α} (v2 : β) (rest : List (α × β)) (h : k ≠ k2) :
    List.lookup k ((k2, v2) :: rest) = List.lookup k rest := by
  conv_lhs => unfold List.lookup
  rw [show (k == k2) = Bool.false by simp [h]]

theorem hashSet_cons_eq {α β : Type} [BEq α] [LawfulBEq α]
    (k : α) (v v2 : β) (rest : List (α × β)) :
    hashSet ((k, v2) :: rest) k v = (k, v) :: rest := by
  conv_lhs => unfold hashSet
  rw [show (k == k) = Bool.true by simp]
  rfl

theorem hashSet_cons_ne {α β : Type} [BEq α] [LawfulBEq α]
    (v : β) (p2 : α × β) (rest : List (α × β)) {k : α} (h : p2.1 ≠ k) :
    hashSet (p2 :: rest) k v = p2 :: hashSet rest k v := by
  obtain ⟨k2, v2⟩ := p2
  conv_lhs => unfold hashSet
  rw [show (k2 == k) = Bool.false by simp; exact h]
  rfl

theorem lookup_hashSet_self {α β : Type} [BEq α] [LawfulBEq α]
    (l : List (α × β)) (k : α) (v : β) :
    (hashSet l k v).lookup k = some v := by
  induction l with
  | nil => exact lookup_cons_self k v []
  | cons p rest ih =>
    obtain ⟨k2, v2⟩ := p
    by_cases h : k2 = k
    · subst h
      rw [hashSet_cons_eq, lookup_cons_self]
    · rw [hashSet_cons_ne v (k2, v2) rest h,
          lookup_cons_ne v2 _ (fun hk => h hk.symm)]
      exact ih

theorem lookup_hashSet_ne {α β : Type} [BEq α] [LawfulBEq α]
    (l : List (α × β)) (k k2 : α) (v : β) (h : k2 ≠ k) :
    (hashSet l k v).lookup k2 = l.lookup k2 := by
  induction l with
  | nil =>
    show List.lookup k2 [(k, v)] = List.lookup k2 []
    rw [lookup_cons_ne v [] h]
  | cons p rest ih =>
    obtain ⟨k3, v3⟩ := p
    by_cases h3 : k3 = k
    · subst h3
      rw [hashSet_cons_eq, lookup_cons_ne v rest h, lookup_cons_ne v3 rest h]
    · rw [hashSet_cons_ne v (k3, v3) rest h3]
      by_cases h23 : k2 = k3
      · subst h23
        rw [lookup_cons_self, lookup_cons_self]
      · rw [lookup_cons_ne v3 _ h23, lookup_cons_ne v3 rest h23]
        exact ih

theorem mem_hashSet {α β : Type} [BEq α] [LawfulBEq α]
    {l : List (α × β)} {k : α} {v : β} {p : α × β} :
    p ∈ hashSet l k v → p = (k, v) ∨ p ∈ l := by
  induction l with
  | nil =>
    intro h
    rcases List.mem_singleton.mp h with h
    exact Or.inl h
  | cons q rest ih =>
    obtain ⟨k2, v2⟩ := q
    by_cases h2 : k2 = k
    · subst h2
      rw [hashSet_cons_eq]
      intro h
      rcases List.mem_cons.mp h with h | h
      · exact Or.inl h
      · exact Or.inr (List.mem_cons_of_mem _ h)
    · rw [hashSet_cons_ne v (k2, v2) rest h2]
      intro h
      rcases List.mem_cons.mp h with h | h
      · exact Or.inr (by simp [h])
      · rcases ih h with h | h
        · exact Or.inl h
        · exact Or.inr (List.mem_cons_of_mem _ h)

theorem lookup_mem {α β : Type} [BEq α] [LawfulBEq α]
    {l : List (α × β)} {k : α} {v : β} :
    l.lookup k = some v → (k, v) ∈ l := by
  induction l with
  | nil => intro h; cases h
  | cons q rest ih =>
    obtain ⟨k2, v2⟩ := q
    by_cases h2 : k = k2
    · subst h2
      rw [lookup_cons_self]
      intro h
      cases h
      exact List.mem_cons_self _ _
    · rw [lookup_cons_ne v2 rest h2]
      intro h
      exact List.mem_cons_of_mem _ (ih h)

theorem getElem_append_lt (arena : List ReposMoveInfo)
    (move : ReposMoveInfo) {i : Nat} (h : i < arena.length) :
    (arena ++ [move])[i]? = arena[i]? := by
  rw [List.getElem?_append, if_pos h]

theorem arena_wf_append_unlinked (arena : List ReposMoveInfo)
    (move : ReposMoveInfo) (hwf : MoveArenaWF arena)
    (hnext : move.next = none) (hprev : move.prev = none) :
    MoveArenaWF (arena ++ [move]) := by
  intro i m hm
  by_cases hi : i < arena.length
  · rw [getElem_append_lt arena move hi] at hm
    obtain ⟨hn, hp⟩ := hwf i m hm
    constructor
    · intro j hj
      obtain ⟨m2, hm2, hrev⟩ := hn j hj
      have hjlt : j < arena.length := by
        by_contra hge
        rw [List.getElem?_eq_none (by omega)] at hm2
        cases hm2
      exact ⟨m2, by rw [getElem_append_lt arena move hjlt]; exact hm2, hrev⟩
    · intro j hj
      obtain ⟨m2, hm2, hrev⟩ := hp j hj
      have hjlt : j < arena.length := by
        by_contra hge
        rw [List.getElem?_eq_none (by omega)] at hm2
        cases hm2
      exact ⟨m2, by rw [getElem_append_lt arena move hjlt]; exact hm2, hrev⟩
  · by_cases hi2 : i = arena.length
    · subst hi2
      rw [List.getElem?_concat_length] at hm
      cases hm
      constructor
      · intro j hj; rw [hnext] at hj; cases hj
      · intro j hj; rw [hprev] at hj; cases hj
    · rw [List.getElem?_eq_none (by simp; omega)] at hm
      cases hm

theorem arena_wf_append_linked (arena : List ReposMoveInfo)
    (move next_move : ReposMoveInfo) (next_idx : Nat)
    (hwf : MoveArenaWF arena)
    (hget : arena[next_idx]? = some next_move)
    (hrev : move.rev < next_move.rev)
    (hnext : move.next = none) (hprev : move.prev = none) :
    MoveArenaWF
      ((arena.set next_idx { next_move with prev := some arena.length })
        ++ [{ move with next := some next_idx }]) := by
  have hlt : next_idx < arena.length := by
    by_contra hge
    rw [List.getElem?_eq_none (by omega)] at hget
    cases hget
  have hlenset :
      (arena.set next_idx
        { next_move with prev := some arena.length }).length
      = arena.length := List.length_set arena next_idx _
  have hgetset : ∀ j : Nat,
      (arena.set next_idx
        { next_move with prev := some arena.length })[j]? =
      if next_idx = j then
        some { next_move with prev := some arena.length }
      else arena[j]? := by
    intro j
    rw [List.getElem?_set]
    by_cases hj : next_idx = j
    · rw [if_pos hj, if_pos hj, if_pos hlt]
    · rw [if_neg hj, if_neg hj]
  intro i m hm
  by_cases hi : i < arena.length
  · rw [getElem_append_lt _ _ (by rw [hlenset]; exact hi), hgetset] at hm
    by_cases hin : next_idx = i
    · rw [if_pos hin] at hm
      cases hm
      obtain ⟨hn, hp⟩ := hwf next_idx next_move (hin ▸ hget)
      constructor
      · intro j hj
        obtain ⟨m2, hm2, hr2⟩ := hn j hj
        have hjlt : j < arena.length := by
          by_contra hge
          rw [List.getElem?_eq_none (by omega)] at hm2
          cases hm2
        have hjn : next_idx ≠ j := by
          intro he
          rw [← he, hget] at hm2
          cases hm2
          omega
        refine ⟨m2, ?_, hr2⟩
        rw [getElem_append_lt _ _ (by rw [hlenset]; exact hjlt), hgetset,
            if_neg hjn]
        exact hm2
      · intro j hj
        cases hj
        refine ⟨{ move with next := some next_idx }, ?_, hrev⟩
        rw [show ((arena.set next_idx
              { next_move with prev := some arena.length }))
              ++ [{ move with next := some next_idx }]
              = (arena.set next_idx
                  { next_move with prev := some arena.length })
                ++ [{ move with next := some next_idx }] from rfl]
        have := List.getElem?_concat_length
          (arena.set next_idx { next_move with prev := some arena.length })
          { move with next := some next_idx }
        rw [hlenset] at this
        exact this
    · rw [if_neg hin] at hm
      obtain ⟨hn, hp⟩ := hwf i m hm
      constructor
      · intro j hj
        obtain ⟨m2, hm2, hr2⟩ := hn j hj
        have hjlt : j < arena.length := by
          by_contra hge
          rw [List.getElem?_eq_none (by omega)] at hm2
          cases hm2
        by_cases hjn : next_idx = j
        · refine ⟨{ next_move with prev := some arena.length }, ?_, ?_⟩
          · rw [getElem_append_lt _ _ (by rw [hlenset]; exact hjlt),
                hgetset, if_pos hjn]
          · rw [← hjn, hget] at hm2
            cases hm2
            exact hr2
        · refine ⟨m2, ?_, hr2⟩
          rw [getElem_append_lt _ _ (by rw [hlenset]; exact hjlt),
              hgetset, if_neg hjn]
          exact hm2
      · intro j hj
        obtain ⟨m2, hm2, hr2⟩ := hp j hj
        have hjlt : j < arena.length := by
          by_contra hge
          rw [List.getElem?_eq_none (by omega)] at hm2
          cases hm2
        by_cases hjn : next_idx = j
        · refine ⟨{ next_move with prev := some arena.length }, ?_, ?_⟩
          · rw [getElem_append_lt _ _ (by rw [hlenset]; exact hjlt),
                hgetset, if_pos hjn]
          · rw [← hjn, hget] at hm2
            cases hm2
            exact hr2
        · refine ⟨m2, ?_, hr2⟩
          rw [getElem_append_lt _ _ (by rw [hlenset]; exact hjlt),
              hgetset, if_neg hjn]
          exact hm2
  · by_cases hi2 : i = arena.length
    · subst hi2
      have := List.getElem?_concat_length
        (arena.set next_idx { next_move with prev := some arena.length })
        { move with next := some next_idx }
      rw [hlenset] at this
      rw [this] at hm
      cases hm
      constructor
      · intro j hj
        cases hj
        refine ⟨{ next_move with prev := some arena.length }, ?_, hrev⟩
        rw [getElem_append_lt _ _ (by rw [hlenset]; exact hlt), hgetset,
            if_pos rfl]
      · intro j hj
        rw [show ({ move with next := some next_idx } :
            ReposMoveInfo).prev = move.prev from rfl, hprev] at hj
        cases hj
    · rw [List.getElem?_eq_none (by simp [hlenset]; omega)] at hm
      cases hm

theorem repos_move_add_bounds (st : MoveScanState)
    (arena2 : List ReposMoveInfo) (move : ReposMoveInfo)
    (hlen : arena2.length = st.arena.length)
    (hmp : ∀ p ∈ st.moved_paths, p.2 < st.arena.length)
    (htb : ∀ e ∈ st.moves_table, ∀ i ∈ e.2, i < st.arena.length) :
    (∀ p ∈ (repos_move_add st arena2 move).moved_paths,
      p.2 < (repos_move_add st arena2 move).arena.length) ∧
    (∀ e ∈ (repos_move_add st arena2 move).moves_table,
      ∀ i ∈ e.2, i < (repos_move_add st arena2 move).arena.length) := by
  have hlen2 : (repos_move_add st arena2 move).arena.length
      = st.arena.length + 1 := by
    simp [repos_move_add, hlen]
  rw [hlen2]
  constructor
  · intro p hp
    rcases mem_hashSet hp with h | h
    · subst h
      simp
    · exact lt_trans (hmp p h) (by omega)
  · intro e he i hi
    rcases mem_hashSet he with h | h
    · subst h
      dsimp only at hi
      rcases List.mem_append.mp hi with h2 | h2
      · cases hlk : st.moves_table.lookup move.rev with
        | none => rw [hlk] at h2; cases h2
        | some l =>
          rw [hlk] at h2
          exact lt_trans (htb _ (lookup_mem hlk) i h2) (by omega)
      · rcases List.mem_singleton.mp h2 with h3
        omega
    · exact lt_trans (htb e h i hi) (by omega)

theorem repos_move_add_data (st : MoveScanState)
    (arena2 : List ReposMoveInfo) (move : ReposMoveInfo)
    (hlen : arena2.length = st.arena.length)
    (hdata : ∀ i, i < st.arena.length →
      arena2[i]?.map ReposMoveInfo.data
        = st.arena[i]?.map ReposMoveInfo.data) :
    ∀ i, i < st.arena.length →
      (repos_move_add st arena2 move).arena[i]?.map ReposMoveInfo.data
        = st.arena[i]?.map ReposMoveInfo.data := by
  intro i hi
  show (arena2 ++ [move])[i]?.map ReposMoveInfo.data = _
  rw [getElem_append_lt arena2 move (by omega)]
  exact hdata i hi

theorem movesTableData_add (st : MoveScanState)
    (arena2 : List ReposMoveInfo) (move : ReposMoveInfo)
    (hlen : arena2.length = st.arena.length)
    (hdata : ∀ i, i < st.arena.length →
      arena2[i]?.map ReposMoveInfo.data
        = st.arena[i]?.map ReposMoveInfo.data)
    (htb : ∀ e ∈ st.moves_table, ∀ i ∈ e.2, i < st.arena.length) :
    ∀ rev, movesTableData (repos_move_add st arena2 move) rev =
      movesTableData st rev ++
        (if rev = move.rev then [move.data] else []) := by
  intro rev
  have hdata2 : ∀ i, i < st.arena.length →
      (arena2 ++ [move])[i]?.map ReposMoveInfo.data
        = st.arena[i]?.map ReposMoveInfo.data := by
    intro i hi
    rw [getElem_append_lt arena2 move (by omega)]
    exact hdata i hi
  have hcongr : ∀ (l : List Nat), (∀ i ∈ l, i < st.arena.length) →
      l.filterMap (fun i => (arena2 ++ [move])[i]?.map ReposMoveInfo.data)
        = l.filterMap (fun i => st.arena[i]?.map ReposMoveInfo.data) :=
    fun l hl => List.filterMap_congr (fun i hi => hdata2 i (hl i hi))
  by_cases hrev : rev = move.rev
  · subst hrev
    unfold movesTableData repos_move_add
    dsimp only
    rw [lookup_hashSet_self]
    dsimp only [Option.getD]
    rw [List.filterMap_append]
    congr 1
    · cases hlk : st.moves_table.lookup move.rev with
      | none => rfl
      | some l =>
        exact hcongr l (fun i hi => htb _ (lookup_mem hlk) i hi)
    · have hidx : (arena2 ++ [move])[st.arena.length]? = some move := by
        have := List.getElem?_concat_length arena2 move
        rw [hlen] at this
        exact this
      simp [List.filterMap, hidx]
  · unfold movesTableData repos_move_add
    dsimp only
    rw [lookup_hashSet_ne _ _ _ _ hrev, if_neg hrev, List.append_nil]
    cases hlk : st.moves_table.lookup rev with
    | none => rfl
    | some l =>
      exact hcongr l (fun i hi => htb _ (lookup_mem hlk) i hi)

theorem repos_move_add_all_unlinked (st : MoveScanState)
    (move : ReposMoveInfo) (hwf : MoveStateWF st)
    (hnext : move.next = none) (hprev : move.prev = none) :
    MoveStateWF (repos_move_add st st.arena move) ∧
    st.arena.length ≤ (repos_move_add st st.arena move).arena.length ∧
    (∀ i, i < st.arena.length →
      (repos_move_add st st.arena move).arena[i]?.map ReposMoveInfo.data
        = st.arena[i]?.map ReposMoveInfo.data) ∧
    (∀ rev, movesTableData (repos_move_add st st.arena move) rev =
      movesTableData st rev ++
        (if rev = move.rev then [move.data] else [])) := by
  obtain ⟨hwfa, hmp, htb⟩ := hwf
  refine ⟨⟨?_, ?_, ?_⟩, ?_, ?_, ?_⟩
  · exact arena_wf_append_unlinked st.arena move hwfa hnext hprev
  · exact (repos_move_add_bounds st st.arena move rfl hmp htb).1
  · exact (repos_move_add_bounds st st.arena move rfl hmp htb).2
  · show st.arena.length ≤ (st.arena ++ [move]).length
    simp
  · exact repos_move_add_data st st.arena move rfl (fun i _ => rfl)
  · exact movesTableData_add st st.arena move rfl (fun i _ => rfl) htb

theorem repos_move_add_all_linked (st : MoveScanState)
    (move next_move : ReposMoveInfo) (next_idx : Nat)
    (hwf : MoveStateWF st)
    (hget : st.arena[next_idx]? = some next_move)
    (hrev : move.rev < next_move.rev)
    (hnext : move.next = none) (hprev : move.prev = none) :
    MoveStateWF (repos_move_add st
      (st.arena.set next_idx { next_move with prev := some st.arena.length })
      { move with next := some next_idx }) ∧
    st.arena.length ≤ (repos_move_add st
      (st.arena.set next_idx { next_move with prev := some st.arena.length })
      { move with next := some next_idx }).arena.length ∧
    (∀ i, i < st.arena.length →
      (repos_move_add st
        (st.arena.set next_idx
          { next_move with prev := some st.arena.length })
        { move with next := some next_idx }).arena[i]?.map
          ReposMoveInfo.data
        = st.arena[i]?.map ReposMoveInfo.data) ∧
    (∀ rev, movesTableData (repos_move_add st
        (st.arena.set next_idx
          { next_move with prev := some st.arena.length })
        { move with next := some next_idx }) rev =
      movesTableData st rev ++
        (if rev = move.rev then [move.data] else [])) := by
  obtain ⟨hwfa, hmp, htb⟩ := hwf
  have hlen : (st.arena.set next_idx
      { next_move with prev := some st.arena.length }).length
      = st.arena.length := List.length_set _ _ _
  have hdata : ∀ i, i < st.arena.length →
      (st.arena.set next_idx
        { next_move with prev := some st.arena.length })[i]?.map
        ReposMoveInfo.data
      = st.arena[i]?.map ReposMoveInfo.data := by
    intro i hi
    rw [List.getElem?_set]
    by_cases hij : next_idx = i
    · subst hij
      have hlt : next_idx < st.arena.length := by
        by_contra hge
        rw [List.getElem?_eq_none (by omega)] at hget
        cases hget
      rw [if_pos rfl, if_pos hlt, hget]
      rfl
    · rw [if_neg hij]
  refine ⟨⟨?_, ?_, ?_⟩, ?_, ?_, ?_⟩
  · exact arena_wf_append_linked st.arena move next_move next_idx hwfa hget
      hrev hnext hprev
  · exact (repos_move_add_bounds st _ _ hlen hmp htb).1
  · exact (repos_move_add_bounds st _ _ hlen hmp htb).2
  · show st.arena.length ≤
      ((st.arena.set next_idx _) ++ [{ move with next := some next_idx }]).length
    simp
  · exact repos_move_add_data st _ _ hlen hdata
  · have htab := movesTableData_add st _
      { move with next := some next_idx } hlen hdata htb
    intro rev
    exact htab rev

theorem find_moves_process_copy_ok (env : MoveScanEnv) (le : LogEntry)
    (d : String) (st : MoveScanState) (copy : CopyInfo)
    (st' : MoveScanState) (hwf : MoveStateWF st) :
    find_moves_process_copy env le d st copy = .ok st' →
    MoveStateWF st' ∧
    st.arena.length ≤ st'.arena.length ∧
    (∀ i, i < st.arena.length →
      st'.arena[i]?.map ReposMoveInfo.data
        = st.arena[i]?.map ReposMoveInfo.data) ∧
    (∀ rev, movesTableData st' rev = movesTableData st rev ++
      (if ancestry_ok env d le.revision copy.copyfrom_path
            copy.copyfrom_rev = Bool.true ∧ rev = le.revision then
        [(d, copy.copyto_path, le.revision, le.author, copy.copyfrom_rev)]
      else [])) := by
  intro h
  unfold find_moves_process_copy at h
  cases hchk : check_move_ancestry env d le.revision copy.copyfrom_path
      copy.copyfrom_rev with
  | error e => rw [hchk] at h; cases h
  | ok b =>
    rw [hchk] at h
    have hanc : ancestry_ok env d le.revision copy.copyfrom_path
        copy.copyfrom_rev = b := by
      unfold ancestry_ok
      rw [hchk]
      cases b <;> rfl
    cases b with
    | false =>
      dsimp only at h
      cases h
      refine ⟨hwf, le_refl _, fun i _ => rfl, fun rev => ?_⟩
      rw [if_neg (by simp [hanc]), List.append_nil]
    | true =>
      dsimp only at h
      cases hlk : st.moved_paths.lookup copy.copyto_path with
      | none =>
        rw [hlk] at h
        cases h
        obtain ⟨w1, w2, w3, w4⟩ := repos_move_add_all_unlinked st
          ⟨d, copy.copyto_path, le.revision, le.author,
           copy.copyfrom_rev, none, none⟩ hwf rfl rfl
        refine ⟨w1, w2, w3, fun rev => ?_⟩
        rw [w4 rev]
        congr 1
        exact if_congr (by simp [hanc]) rfl rfl
      | some next_idx =>
        rw [hlk] at h
        dsimp only at h
        cases hgn : st.arena.get? next_idx with
        | none =>
          rw [hgn] at h
          cases h
          obtain ⟨w1, w2, w3, w4⟩ := repos_move_add_all_unlinked st
            ⟨d, copy.copyto_path, le.revision, le.author,
             copy.copyfrom_rev, none, none⟩ hwf rfl rfl
          refine ⟨w1, w2, w3, fun rev => ?_⟩
          rw [w4 rev]
          congr 1
          exact if_congr (by simp [hanc]) rfl rfl
        | some next_move =>
          rw [hgn] at h
          dsimp only at h
          cases hchk2 : check_move_ancestry env
              next_move.moved_from_repos_relpath next_move.rev d
              copy.copyfrom_rev with
          | error e => rw [hchk2] at h; cases h
          | ok b2 =>
            rw [hchk2] at h
            cases b2 with
            | false =>
              dsimp only at h
              cases h
              obtain ⟨w1, w2, w3, w4⟩ := repos_move_add_all_unlinked st
                ⟨d, copy.copyto_path, le.revision, le.author,
                 copy.copyfrom_rev, none, none⟩ hwf rfl rfl
              refine ⟨w1, w2, w3, fun rev => ?_⟩
              rw [w4 rev]
              congr 1
              exact if_congr (by simp [hanc]) rfl rfl
            | true =>
              dsimp only at h
              by_cases hlt : le.revision < next_move.rev
              · rw [if_pos hlt] at h
                cases h
                obtain ⟨w1, w2, w3, w4⟩ := repos_move_add_all_linked st
                  ⟨d, copy.copyto_path, le.revision, le.author,
                   copy.copyfrom_rev, none, none⟩ next_move next_idx hwf
                  (by rw [← List.get?_eq_getElem?]; exact hgn) hlt rfl rfl
                refine ⟨w1, w2, w3, fun rev => ?_⟩
                rw [w4 rev]
                congr 1
                exact if_congr (by simp [hanc]) rfl rfl
              · rw [if_neg hlt] at h
                cases h

theorem process_copies_fold_ok (env : MoveScanEnv) (le : LogEntry)
    (d : String) (copies : List CopyInfo) :
    ∀ (st st' : MoveScanState), MoveStateWF st →
    copies.foldlM (find_moves_process_copy env le d) st = .ok st' →
    MoveStateWF st' ∧ st.arena.length ≤ st'.arena.length ∧
    (∀ i, i < st.arena.length →
      st'.arena[i]?.map ReposMoveInfo.data
        = st.arena[i]?.map ReposMoveInfo.data) ∧
    (∀ rev, movesTableData st' rev = movesTableData st rev ++
      (if rev = le.revision then
        (copies.filter (fun copy => ancestry_ok env d le.revision
            copy.copyfrom_path copy.copyfrom_rev)).map
          (fun copy => (d, copy.copyto_path, le.revision, le.author,
            copy.copyfrom_rev))
      else [])) := by
  induction copies with
  | nil =>
    intro st st' hwf h
    cases h
    refine ⟨hwf, le_refl _, fun i _ => rfl, fun rev => ?_⟩
    simp
  | cons c cs ih =>
    intro st st' hwf h
    rw [List.foldlM_cons] at h
    cases hstep : find_moves_process_copy env le d st c with
    | error e =>
      rw [hstep] at h
      cases h
    | ok st1 =>
      rw [hstep] at h
      obtain ⟨w1, w2, w3, w4⟩ :=
        find_moves_process_copy_ok env le d st c st1 hwf hstep
      obtain ⟨v1, v2, v3, v4⟩ := ih st1 st' w1 h
      refine ⟨v1, le_trans w2 v2, ?_, ?_⟩
      · intro i hi
        rw [v3 i (by omega), w3 i hi]
      · intro rev
        rw [v4 rev, w4 rev, List.append_assoc]
        congr 1
        by_cases hrev : rev = le.revision
        · rw [if_pos hrev, if_pos hrev]
          by_cases hanc : ancestry_ok env d le.revision c.copyfrom_path
              c.copyfrom_rev = Bool.true
          · rw [if_pos ⟨hanc, hrev⟩,
                List.filter_cons_of_pos (by exact hanc)]
            rfl
          · rw [if_neg (fun hcon => hanc hcon.1),
                List.filter_cons_of_neg (by simpa using hanc)]
            rfl
        · rw [if_neg (fun hcon => hrev hcon.2), if_neg hrev, if_neg hrev]
          rfl

theorem find_moves_in_revision_ok (env : MoveScanEnv) (le : LogEntry)
    (copies : List (String × List CopyInfo)) (deleted_paths : List String) :
    ∀ (st st' : MoveScanState), MoveStateWF st →
    find_moves_in_revision env le copies deleted_paths st = .ok st' →
    MoveStateWF st' ∧ st.arena.length ≤ st'.arena.length ∧
    (∀ i, i < st.arena.length →
      st'.arena[i]?.map ReposMoveInfo.data
        = st.arena[i]?.map ReposMoveInfo.data) ∧
    (∀ rev, movesTableData st' rev = movesTableData st rev ++
      (if rev = le.revision then
        deleted_paths.flatMap (fun dp =>
          (((copies.lookup dp).getD []).filter (fun copy =>
              ancestry_ok env dp le.revision copy.copyfrom_path
                copy.copyfrom_rev)).map
            (fun copy => (dp, copy.copyto_path, le.revision, le.author,
              copy.copyfrom_rev)))
      else [])) := by
  unfold find_moves_in_revision
  induction deleted_paths with
  | nil =>
    intro st st' hwf h
    cases h
    refine ⟨hwf, le_refl _, fun i _ => rfl, fun rev => ?_⟩
    simp
  | cons dp dps ih =>
    intro st st' hwf h
    rw [List.foldlM_cons] at h
    cases hlk : copies.lookup dp with
    | none =>
      rw [hlk] at h
      dsimp only at h
      obtain ⟨v1, v2, v3, v4⟩ := ih st st' hwf h
      refine ⟨v1, v2, v3, fun rev => ?_⟩
      rw [v4 rev]
      congr 1
      by_cases hrev : rev = le.revision
      · rw [if_pos hrev, if_pos hrev, List.flatMap_cons, hlk]
        rfl
      · rw [if_neg hrev, if_neg hrev]
    | some cws =>
      rw [hlk] at h
      dsimp only at h
      cases hstep : cws.foldlM
          (find_moves_process_copy env le dp) st with
      | error e =>
        rw [hstep] at h
        cases h
      | ok st1 =>
        rw [hstep] at h
        obtain ⟨w1, w2, w3, w4⟩ :=
          process_copies_fold_ok env le dp cws st st1 hwf hstep
        obtain ⟨v1, v2, v3, v4⟩ := ih st1 st' w1 h
        refine ⟨v1, le_trans w2 v2, ?_, ?_⟩
        · intro i hi
          rw [v3 i (by omega), w3 i hi]
        · intro rev
          rw [v4 rev, w4 rev, List.append_assoc]
          congr 1
          by_cases hrev : rev = le.revision
          · rw [if_pos hrev, if_pos hrev, if_pos hrev, List.flatMap_cons,
                hlk]
            rfl
          · rw [if_neg hrev, if_neg hrev, if_neg hrev]
            rfl

theorem initial_wf : MoveStateWF MoveScanState.initial := by
  refine ⟨fun i m h => ?_, fun p hp => ?_, fun e he => ?_⟩
  · rw [show (MoveScanState.initial.arena[i]? : Option ReposMoveInfo)
        = none by rfl] at h
    cases h
  · cases hp
  · cases he

theorem find_moves_entries_wf (env : MoveScanEnv)
    (entries : List (LogEntry × List (String × List CopyInfo) ×
      List String)) :
    ∀ (st st' : MoveScanState), MoveStateWF st →
    entries.foldlM
      (fun st e => find_moves_in_revision env e.1 e.2.1 e.2.2 st) st
      = .ok st' →
    MoveStateWF st' := by
  induction entries with
  | nil =>
    intro st st' hwf h
    cases h
    exact hwf
  | cons e es ih =>
    intro st st' hwf h
    rw [List.foldlM_cons] at h
    cases hstep : find_moves_in_revision env e.1 e.2.1 e.2.2 st with
    | error e2 => rw [hstep] at h; cases h
    | ok st1 =>
      rw [hstep] at h
      exact ih st1 st'
        (find_moves_in_revision_ok env e.1 e.2.1 e.2.2 st st1 hwf hstep).1 h

theorem find_moves_wf (env : MoveScanEnv)
    (entries : List (LogEntry × List (String × List CopyInfo) ×
      List String)) (st' : MoveScanState) :
    find_moves env entries = .ok st' → MoveStateWF st' := by
  intro h
  exact find_moves_entries_wf env entries MoveScanState.initial st'
    initial_wf h

theorem iterNext_rev_bound (arena : List ReposMoveInfo)
    (hwf : MoveArenaWF arena) :
    ∀ (n i j : Nat), iterNext arena (n + 1) i = some j →
      ∃ mi mj : ReposMoveInfo, arena[i]? = some mi ∧ arena[j]? = some mj ∧
        mi.rev + (n + 1 : Nat) ≤ mj.rev := by
  intro n
  induction n with
  | zero =>
    intro i j h
    unfold iterNext at h
    cases hi : arena[i]? with
    | none => rw [hi] at h; cases h
    | some m =>
      rw [hi] at h
      dsimp only at h
      cases hn : m.next with
      | none => rw [hn] at h; cases h
      | some k =>
        rw [hn] at h
        unfold iterNext at h
        cases h
        obtain ⟨m2, hm2, hr⟩ := (hwf i m hi).1 j hn
        exact ⟨m, m2, rfl, hm2, by push_cast; omega⟩
  | succ n ihn =>
    intro i j h
    unfold iterNext at h
    cases hi : arena[i]? with
    | none => rw [hi] at h; cases h
    | some m =>
      rw [hi] at h
      dsimp only at h
      cases hn : m.next with
      | none => rw [hn] at h; cases h
      | some k =>
        rw [hn] at h
        obtain ⟨mk, mj, hmk, hmj, hr⟩ := ihn k j h
        obtain ⟨m2, hm2, hr2⟩ := (hwf i m hi).1 k hn
        rw [hm2] at hmk
        cases hmk
        exact ⟨m, mj, rfl, hmj, by push_cast at hr ⊢; omega⟩

theorem iterNext_none_of_out (arena : List ReposMoveInfo) (i n : Nat)
    (h : arena[i]? = none) : iterNext arena (n + 1) i = none := by
  unfold iterNext
  rw [h]

theorem rev_le_arenaMaxRev (arena : List ReposMoveInfo) :
    ∀ (i : Nat) (m : ReposMoveInfo), arena[i]? = some m →
      m.rev ≤ arenaMaxRev arena := by
  induction arena with
  | nil => intro i m h; simp at h
  | cons x xs ih =>
    intro i m h
    cases i with
    | zero =>
      rw [List.getElem?_cons_zero] at h
      cases h
      exact le_max_left _ _
    | succ k =>
      rw [List.getElem?_cons_succ] at h
      exact le_trans (ih k m h) (le_max_right _ _)

/-- C5: after any successful scan, next pointers increase in revision,
prev pointers decrease, chains are acyclic and every chain walk
terminates. -/
theorem C5_move_chain_invariants :
    ∀ (env : MoveScanEnv)
      (entries : List (LogEntry × List (String × List CopyInfo) ×
        List String))
      (st' : MoveScanState),
      find_moves env entries = .ok st' →
      (∀ (i : Nat) (m : ReposMoveInfo), st'.arena[i]? = some m →
        (∀ j, m.next = some j →
          ∃ m2 : ReposMoveInfo, st'.arena[j]? = some m2 ∧
            m.rev < m2.rev) ∧
        (∀ j, m.prev = some j →
          ∃ m2 : ReposMoveInfo, st'.arena[j]? = some m2 ∧
            m2.rev < m.rev)) ∧
      (∀ (n i : Nat), iterNext st'.arena (n + 1) i ≠ some i) ∧
      (∀ i : Nat, ∃ N : Nat, ∀ n, N ≤ n →
        iterNext st'.arena n i = none) := by
  intro env entries st' h
  obtain ⟨hwfa, hmp, htb⟩ := find_moves_wf env entries st' h
  refine ⟨hwfa, ?_, ?_⟩
  · intro n i hcyc
    obtain ⟨mi, mj, hmi, hmj, hle⟩ :=
      iterNext_rev_bound st'.arena hwfa n i i hcyc
    rw [hmi] at hmj
    cases hmj
    push_cast at hle
    omega
  · intro i
    cases hi : st'.arena[i]? with
    | none =>
      refine ⟨1, fun n hn => ?_⟩
      cases n with
      | zero => exact absurd hn (by omega)
      | succ k => exact iterNext_none_of_out st'.arena i k hi
    | some mi =>
      refine ⟨(arenaMaxRev st'.arena + 1 - mi.rev).toNat + 1,
        fun n hn => ?_⟩
      cases n with
      | zero => exact absurd hn (by omega)
      | succ k =>
        cases hj : iterNext st'.arena (k + 1) i with
        | none => rfl
        | some j =>
          obtain ⟨mi2, mj, hmi2, hmj, hle⟩ :=
            iterNext_rev_bound st'.arena hwfa k i j hj
          rw [hi] at hmi2
          cases hmi2
          have hb := rev_le_arenaMaxRev st'.arena j mj hmj
          push_cast at hle
          omega

/-- C5 witness: scanning one revision that deletes foo and copies foo@1
to bar produces one chain-free move satisfying the invariants. -/
theorem C5_witness :
    find_moves exampleMoveEnv exampleMoveEntries = .ok exampleScanResult ∧
    ((∀ (i : Nat) (m : ReposMoveInfo),
        exampleScanResult.arena[i]? = some m →
        (∀ j, m.next = some j →
          ∃ m2 : ReposMoveInfo, exampleScanResult.arena[j]? = some m2 ∧
            m.rev < m2.rev) ∧
        (∀ j, m.prev = some j →
          ∃ m2 : ReposMoveInfo, exampleScanResult.arena[j]? = some m2 ∧
            m2.rev < m.rev)) ∧
      (∀ (n i : Nat),
        iterNext exampleScanResult.arena (n + 1) i ≠ some i) ∧
      (∀ i : Nat, ∃ N : Nat, ∀ n, N ≤ n →
        iterNext exampleScanResult.arena n i = none)) :=
  ⟨by decide, C5_move_chain_invariants exampleMoveEnv exampleMoveEntries
    exampleScanResult (by decide)⟩

/-- C7: in each scanned revision, a move quintuple is appended to the
moves table entry of that revision for exactly the ancestry-verified
(deleted path, copy) pairs, in discovery order; other table entries are
untouched. -/
theorem C7_moves_table_append :
    ∀ (env : MoveScanEnv) (le : LogEntry)
      (copies : List (String × List CopyInfo))
      (deleted_paths : List String) (st st' : MoveScanState),
      MoveStateWF st →
      find_moves_in_revision env le copies deleted_paths st = .ok st' →
      (movesTableData st' le.revision = movesTableData st le.revision ++
        deleted_paths.flatMap (fun dp =>
          (((copies.lookup dp).getD []).filter (fun copy =>
              ancestry_ok env dp le.revision copy.copyfrom_path
                copy.copyfrom_rev)).map
            (fun copy => (dp, copy.copyto_path, le.revision, le.author,
              copy.copyfrom_rev)))) ∧
      (∀ rev, rev ≠ le.revision →
        movesTableData st' rev = movesTableData st rev) := by
  intro env le copies deleted_paths st st' hwf h
  obtain ⟨-, -, -, v4⟩ :=
    find_moves_in_revision_ok env le copies deleted_paths st st' hwf h
  constructor
  · rw [v4 le.revision, if_pos rfl]
  · intro rev hne
    rw [v4 rev, if_neg hne, List.append_nil]

/-- C7 witness: the single ancestry-verified copy of the example revision
is appended to the table entry for revision 2. -/
theorem C7_witness :
    MoveStateWF MoveScanState.initial ∧
    movesTableData exampleScanResult 2 =
      [("foo", "bar", (2 : Int), "alice", (1 : Int))] :=
  ⟨initial_wf, by
    have h := (C7_moves_table_append exampleMoveEnv ⟨2, "alice"⟩
      [("foo", [⟨"bar", "foo", 1⟩])] ["foo"] MoveScanState.initial
      exampleScanResult initial_wf (by decide)).1
    exact h.trans (by decide)⟩
